import Mathlib

/-!
Verification development for the transaction-count repository (src/app.js).
The JavaScript source is shallowly embedded: strings are Lean `String`s,
JS numbers are modelled as `Rat` (amounts) or `Int` (dates as civil day
numbers, hash values with explicit 32-bit wrap-around), JS `null`/
`undefined` are `Option`, and thrown exceptions are `Except String`.
Regular-expression tests from the source are modelled by executable
character-list matchers, one per regex, documented at each definition.
-/

deriving instance DecidableEq for Except

namespace TxApp

/-- JS whitespace as used by `String.prototype.trim` and the regex class
`\s`: space, tab, LF, VT, FF, CR, NBSP, BOM. -/
def isJsWhitespace (c : Char) : Bool :=
  c = ' ' || c = '\t' || c = '\n' || c = '\x0B' || c = '\x0C' || c = '\r' ||
  c = '\u00A0' || c = '\uFEFF'

/-- Model of `String.prototype.trim` on character lists. -/
def jsTrimL (l : List Char) : List Char :=
  ((l.dropWhile isJsWhitespace).reverse.dropWhile isJsWhitespace).reverse

/-- Model of `String.prototype.trim`. -/
def jsTrim (s : String) : String :=
  ⟨jsTrimL s.data⟩

/-- ASCII lower-casing of one character (model of JS `toLowerCase` for
the ASCII vocabulary that occurs in the source). -/
def jsToLowerChar (c : Char) : Char :=
  if 'A' ≤ c ∧ c ≤ 'Z' then Char.ofNat (c.toNat + 32) else c

/-- Model of `String.prototype.toLowerCase` (ASCII). -/
def jsToLower (s : String) : String :=
  ⟨s.data.map jsToLowerChar⟩

/-- Word character for the regex `\b` boundary: `[A-Za-z0-9_]`. -/
def isWordChar (c : Char) : Bool :=
  c.isAlpha || c.isDigit || c = '_'

/-- Does `needle` occur at the head of the list? -/
def startsWithL : List Char → List Char → Bool
  | [], _ => true
  | _ :: _, [] => false
  | p :: ps, c :: cs => p = c && startsWithL ps cs

/-- Substring test (model of `String.prototype.includes`), on lists. -/
def containsSubL (needle : List Char) : List Char → Bool
  | [] => startsWithL needle []
  | c :: t => startsWithL needle (c :: t) || containsSubL needle t

/-- Model of `hay.includes(needle)`. -/
def jsIncludes (hay needle : String) : Bool :=
  containsSubL needle.data hay.data

/-- A suffix starts with a non-word character (or is empty): the regex
boundary `\b` placed after a match that ends in a word character. -/
def nonWordStart : List Char → Bool
  | [] => true
  | c :: _ => !isWordChar c

/-- Match a literal keyword, returning the remaining suffix. -/
def litM (kw : List Char) (l : List Char) : Option (List Char) :=
  if startsWithL kw l then some (l.drop kw.length) else none

/-- Scan all positions of the text; at each position whose preceding
character is absent or non-word (the `\b` boundary before a keyword that
starts with a word character), try every alternative; a match succeeds if
the remaining suffix starts at a `\b` boundary.  Models
`/\b(alt1|alt2|...)\b/` tests for alternatives that begin and end with
word characters. -/
def wbScanL (alts : List (List Char → Option (List Char))) :
    Option Char → List Char → Bool
  | _, [] => false
  | prev, c :: t =>
    ((match prev with | some p => !isWordChar p | none => true) &&
      alts.any (fun f =>
        match f (c :: t) with
        | some rest => nonWordStart rest
        | none => false)) ||
    wbScanL alts (some c) t

/-- Word-boundary keyword test over a string (see `wbScanL`). -/
def wbTest (alts : List (List Char → Option (List Char))) (s : String) : Bool :=
  wbScanL alts none s.data

/-- Alternative: a literal keyword. -/
def lit (w : String) : List Char → Option (List Char) :=
  litM w.data

/-- Alternative: a literal keyword with an optional trailing `s`
(regex `kws?`).  Consuming the `s` greedily is equivalent to the regex:
if the char after `kw` is `s`, the boundary `\b` directly after `kw`
fails anyway. -/
def litOptS (w : String) : List Char → Option (List Char) := fun l =>
  (litM w.data l).map (fun r => match r with | 's' :: r2 => r2 | _ => r)

/-- Alternative: `w1\s*w2` (e.g. regex `auto\s*pay`).  Greedily dropping
the whitespace run is equivalent since `w2` starts with a non-space. -/
def litGapWs (w1 w2 : String) : List Char → Option (List Char) := fun l =>
  (litM w1.data l).bind (fun r => litM w2.data (r.dropWhile isJsWhitespace))

/-- Alternative: `w1 ?w2` (regex with one optional space, e.g.
`bill ?pay`). -/
def litOptSpace (w1 w2 : String) : List Char → Option (List Char) := fun l =>
  (litM w1.data l).bind (fun r =>
    match litM w2.data r with
    | some x => some x
    | none => match r with
      | ' ' :: r2 => litM w2.data r2
      | _ => none)

/-- After the end of a keyword, the regex `( |$)` accepts a space or the
end of the string. -/
def spaceOrEnd : List Char → Bool
  | [] => true
  | c :: _ => c = ' '

/-- Scan for `/(^| )(kw1|kw2|...)( |$)/`: a keyword delimited by start or
a space on the left and a space or end on the right.  `atB` records
whether the current position follows `^` or a space. -/
def spaceDelimScan (kws : List String) (atB : Bool) : List Char → Bool
  | [] => false
  | c :: t =>
    (atB && kws.any (fun k =>
      startsWithL k.data (c :: t) && spaceOrEnd ((c :: t).drop k.data.length))) ||
    spaceDelimScan kws (c = ' ') t

/-- Test of `/(^| )(kw1|...)( |$)/` against a whole string. -/
def spaceDelimTest (kws : List String) (s : String) : Bool :=
  spaceDelimScan kws true s.data

/-- Model of the check-number regex `/\bcheck\s*#?\s*\d+\b/i` applied to
an already lower-cased description. -/
def checkNumScan (prev : Option Char) : List Char → Bool
  | [] => false
  | c :: t =>
    ((match prev with | some p => !isWordChar p | none => true) &&
      (match litM "check".data (c :: t) with
       | some r =>
         let r1 := r.dropWhile isJsWhitespace
         let r2 := match r1 with | '#' :: x => x | _ => r1
         let r3 := r2.dropWhile isJsWhitespace
         (match r3 with | d :: _ => d.isDigit | [] => false) &&
           nonWordStart (r3.dropWhile Char.isDigit)
       | none => false)) ||
    checkNumScan (some c) t

/-- Test of `/\bcheck\s*#?\s*\d+\b/i` against a whole string. -/
def checkNumTest (s : String) : Bool :=
  checkNumScan none s.data

/-! ## Anchored numeric patterns (one definition per source regex) -/

/-- Regex `^\d+$` (nonempty all-digit string). -/
def allDigits1 (l : List Char) : Bool :=
  !l.isEmpty && l.all Char.isDigit

/-- Split a list at the first occurrence of `ch` (none if absent). -/
def splitAtFirst (ch : Char) : List Char → Option (List Char × List Char)
  | [] => none
  | c :: t =>
    if c = ch then some ([], t)
    else
      match splitAtFirst ch t with
      | some (a, b) => some (c :: a, b)
      | none => none

/-- Split at every occurrence of one character (model of JS
`str.split('/')`; empty pieces are preserved). -/
def splitCharGo (sep : Char) (cur : List Char) : List Char → List String
  | [] => [⟨cur.reverse⟩]
  | c :: t =>
    if c = sep then (⟨cur.reverse⟩ : String) :: splitCharGo sep [] t
    else splitCharGo sep (c :: cur) t

/-- Model of `str.split('/')` (and other single-character splits). -/
def splitChar (sep : Char) (s : String) : List String :=
  splitCharGo sep [] s.data

/-- Drop one optional leading `+` or `-` (the regex `[+-]?`). -/
def stripSign (l : List Char) : List Char :=
  match l with
  | c :: t => if c = '+' || c = '-' then t else l
  | [] => l

/-- Helper for `^\d{1,3}(\.\d{3})*` tails: repeated groups of a dot
followed by exactly three digits. -/
def euroThousandsGroups : List Char → Bool
  | [] => true
  | '.' :: a :: b :: c :: rest =>
    a.isDigit && b.isDigit && c.isDigit && euroThousandsGroups rest
  | _ => false

/-- Regex `^\d{1,3}(\.\d{3})*,\d+$` (European thousands-dot plus
comma-decimal, unsigned). -/
def euroThousandsMatch (l : List Char) : Bool :=
  match splitAtFirst ',' l with
  | some (left, right) =>
    let d1 := left.takeWhile Char.isDigit
    decide (1 ≤ d1.length) && decide (d1.length ≤ 3) &&
      euroThousandsGroups (left.drop d1.length) && allDigits1 right
  | none => false

/-- Regex `^[+-]?\d+,\d{2}$` (simple European decimal comma). -/
def euroSimpleMatch (l : List Char) : Bool :=
  let r := stripSign l
  match splitAtFirst ',' r with
  | some (left, right) =>
    allDigits1 left && decide (right.length = 2) && right.all Char.isDigit
  | none => false

/-- Regex `^[+-]?\d*\.?\d+$` (the validation regex of
`parseAmountEnhanced`). -/
def validNumMatch (l : List Char) : Bool :=
  let r := stripSign l
  match splitAtFirst '.' r with
  | some (a, b) => a.all Char.isDigit && allDigits1 b
  | none => allDigits1 r

/-- Regex `^[+-]?\d+\.?\d*$` (simple number with optional fraction). -/
def numOptFracMatch (l : List Char) : Bool :=
  let r := stripSign l
  let ip := r.takeWhile Char.isDigit
  decide (1 ≤ ip.length) &&
    (match r.drop ip.length with
     | [] => true
     | '.' :: t => t.all Char.isDigit
     | _ => false)

/-- Regex `^[+-]?\$?\d+\.?\d*$` (simple number with optional dollar
sign). -/
def dollarNumMatch (l : List Char) : Bool :=
  let r := stripSign l
  let r2 := match r with | '$' :: t => t | _ => r
  let ip := r2.takeWhile Char.isDigit
  decide (1 ≤ ip.length) &&
    (match r2.drop ip.length with
     | [] => true
     | '.' :: t => t.all Char.isDigit
     | _ => false)

/-- Regex `^[+-]?\d+,\d{3}(\.\d{2})?$` (thousands separator with
optional two-digit fraction). -/
def thousandsSepMatch (l : List Char) : Bool :=
  let r := stripSign l
  match splitAtFirst ',' r with
  | some (left, right) =>
    allDigits1 left &&
      decide ((right.take 3).length = 3) && (right.take 3).all Char.isDigit &&
      (match right.drop 3 with
       | [] => true
       | '.' :: t => decide (t.length = 2) && t.all Char.isDigit
       | _ => false)
  | none => false

/-- Regex `^[+-]?\d+\.\d{2}$` (decimal with exactly two places). -/
def twoPlacesMatch (l : List Char) : Bool :=
  let r := stripSign l
  match splitAtFirst '.' r with
  | some (a, b) => allDigits1 a && decide (b.length = 2) && b.all Char.isDigit
  | none => false

/-- Regex `^[+-]?\d+\.\d{3},\d{2}$` (European format as listed in
`isValidAmount`). -/
def euroValidAmountMatch (l : List Char) : Bool :=
  let r := stripSign l
  match splitAtFirst '.' r with
  | some (a, b) =>
    allDigits1 a &&
      (match splitAtFirst ',' b with
       | some (c, d) =>
         decide (c.length = 3) && c.all Char.isDigit &&
           decide (d.length = 2) && d.all Char.isDigit
       | none => false)
  | none => false

/-- Regex `^\d+\.?\d*$` (unsigned simple number). -/
def unsignedNumMatch (l : List Char) : Bool :=
  let ip := l.takeWhile Char.isDigit
  decide (1 ≤ ip.length) &&
    (match l.drop ip.length with
     | [] => true
     | '.' :: t => t.all Char.isDigit
     | _ => false)

/-- Regex `^\d{1,2}sep\d{1,2}sep\d{4}$` (day/month-first dates with a
given separator). -/
def dmyMatch (sep : Char) (l : List Char) : Bool :=
  match splitAtFirst sep l with
  | some (a, r) =>
    decide (1 ≤ a.length) && decide (a.length ≤ 2) && a.all Char.isDigit &&
      (match splitAtFirst sep r with
       | some (b, c) =>
         decide (1 ≤ b.length) && decide (b.length ≤ 2) && b.all Char.isDigit &&
           decide (c.length = 4) && c.all Char.isDigit
       | none => false)
  | none => false

/-- Regex `^\d{4}sep\d{1,2}sep\d{1,2}$` (year-first dates with a given
separator). -/
def ymdMatch (sep : Char) (l : List Char) : Bool :=
  match splitAtFirst sep l with
  | some (a, r) =>
    decide (a.length = 4) && a.all Char.isDigit &&
      (match splitAtFirst sep r with
       | some (b, c) =>
         decide (1 ≤ b.length) && decide (b.length ≤ 2) && b.all Char.isDigit &&
           decide (1 ≤ c.length) && decide (c.length ≤ 2) && c.all Char.isDigit
       | none => false)
  | none => false

/-- Regex `^\d{4}-\d{2}-\d{2}$` (the strict ISO check in
`parseDateEnhanced`). -/
def strictIsoMatch (l : List Char) : Bool :=
  match l with
  | [a, b, c, d, s1, e, f, s2, g, h] =>
    [a, b, c, d, e, f, g, h].all Char.isDigit && s1 = '-' && s2 = '-'
  | _ => false

/-! ## JS number parsing -/

/-- Value of a nonempty digit list. -/
def digitsToNat (l : List Char) : Nat :=
  l.foldl (fun n c => 10 * n + (c.toNat - '0'.toNat)) 0

/-- Model of `parseInt(s)` (radix 10): skip leading whitespace, optional
sign, longest digit run; `none` models `NaN`.  The automatic hexadecimal
`0x` prefix of JS is not modelled (no call site feeds such strings). -/
def parseIntJS (s : String) : Option Int :=
  let l := s.data.dropWhile isJsWhitespace
  let sgn : Int := match l with | '-' :: _ => -1 | _ => 1
  let r := stripSign l
  let ds := r.takeWhile Char.isDigit
  if ds.isEmpty then none else some (sgn * (digitsToNat ds : Int))

/-- Model of `parseFloat(s)` for decimal notation: skip leading
whitespace, optional sign, longest `digits[.digits]` run; `none` models
`NaN`.  The resulting value is kept as an exact rational (float64
rounding is not modelled); exponents do not occur at any call site. -/
def jsParseFloat (s : String) : Option Rat :=
  let l := s.data.dropWhile isJsWhitespace
  let sgn : Int := match l with | '-' :: _ => -1 | _ => 1
  let r := stripSign l
  let ip := r.takeWhile Char.isDigit
  let r2 := r.drop ip.length
  match r2 with
  | '.' :: r3 =>
    let fp := r3.takeWhile Char.isDigit
    if ip.isEmpty && fp.isEmpty then none
    else some (mkRat (sgn * (digitsToNat ip * 10 ^ fp.length + digitsToNat fp))
      (10 ^ fp.length))
  | _ =>
    if ip.isEmpty then none else some (mkRat (sgn * digitsToNat ip) 1)

/-! ## Calendar arithmetic (civil dates as day numbers since 1970-01-01) -/

/-- Leap year in the proleptic Gregorian calendar. -/
def isLeapYear (y : Int) : Bool :=
  (y.emod 4 = 0 && y.emod 100 ≠ 0) || y.emod 400 = 0

/-- Days in a month. -/
def daysInMonth (y m : Int) : Int :=
  if m = 2 then (if isLeapYear y then 29 else 28)
  else if m = 4 || m = 6 || m = 9 || m = 11 then 30
  else 31

/-- Day number since 1970-01-01 of the civil date `y-m-d` (standard
days-from-civil computation; `d` beyond the month length rolls over
linearly, matching the JS `Date(year, month, day)` constructor). -/
def daysFromCivil (y m d : Int) : Int :=
  let y2 := y - (if m ≤ 2 then 1 else 0)
  let era := Int.fdiv y2 400
  let yoe := y2 - era * 400
  let doy := Int.fdiv (153 * (if m > 2 then m - 3 else m + 9) + 2) 5 + d - 1
  let doe := yoe * 365 + Int.fdiv yoe 4 - Int.fdiv yoe 100 + doy
  era * 146097 + doe - 719468

/-- Civil date `(y, m, d)` of a day number since 1970-01-01 (standard
civil-from-days computation). -/
def civilFromDays (z0 : Int) : Int × Int × Int :=
  let z := z0 + 719468
  let era := Int.fdiv z 146097
  let doe := z - era * 146097
  let yoe := Int.fdiv (doe - Int.fdiv doe 1460 + Int.fdiv doe 36524 -
    Int.fdiv doe 146096) 365
  let y := yoe + era * 400
  let doy := doe - (365 * yoe + Int.fdiv yoe 4 - Int.fdiv yoe 100)
  let mp := Int.fdiv (5 * doy + 2) 153
  let d := doy - Int.fdiv (153 * mp + 2) 5 + 1
  let m := mp + (if mp < 10 then 3 else -9)
  (y + (if m ≤ 2 then 1 else 0), m, d)

/-- A JS `Date` object at day resolution: either a civil day number or
the Invalid Date (`NaN` time value).  Time of day and time zones are
dropped; every claim concerns calendar dates only. -/
inductive JSDate where
  | valid (epochDays : Int)
  | invalid
deriving DecidableEq, Repr

/-- Model of `new Date(year, month - 1, day)` where `month` and `day`
are the 1-based values from the source: a `NaN` year yields the Invalid
Date; a year in `[0, 99]` is mapped to `1900 + year` (JS quirk). -/
def jsDateYMD (year : Option Int) (m d : Int) : JSDate :=
  match year with
  | none => .invalid
  | some y =>
    let y2 := if 0 ≤ y ∧ y ≤ 99 then y + 1900 else y
    .valid (daysFromCivil y2 m d)

/-- Model of `new Date(string)`: the ECMA-262 Date Time String Format,
date-only forms `YYYY`, `YYYY-MM`, `YYYY-MM-DD` (interpreted at UTC
midnight, so the civil date is the written one).  `none` models both an
Invalid Date and a failed parse, which every call site treats alike via
an `isNaN` guard.  Engine-specific legacy parsing of other layouts is
modelled as failure. -/
def jsNewDate (s : String) : Option JSDate :=
  match s.data with
  | [a, b, c, d] =>
    if [a, b, c, d].all Char.isDigit then
      some (.valid (daysFromCivil (digitsToNat [a, b, c, d] : Int) 1 1))
    else none
  | [a, b, c, d, s1, e, f] =>
    if [a, b, c, d, e, f].all Char.isDigit && s1 = '-' then
      let y : Int := digitsToNat [a, b, c, d]
      let m : Int := digitsToNat [e, f]
      if 1 ≤ m ∧ m ≤ 12 then some (.valid (daysFromCivil y m 1)) else none
    else none
  | [a, b, c, d, s1, e, f, s2, g, h] =>
    if [a, b, c, d, e, f, g, h].all Char.isDigit && s1 = '-' && s2 = '-' then
      let y : Int := digitsToNat [a, b, c, d]
      let m : Int := digitsToNat [e, f]
      let dd : Int := digitsToNat [g, h]
      if 1 ≤ m ∧ m ≤ 12 ∧ 1 ≤ dd ∧ dd ≤ daysInMonth y m then
        some (.valid (daysFromCivil y m dd))
      else none
    else none
  | _ => none

/-- Left-pad a natural number with zeros. -/
def padNat (width n : Nat) : String :=
  let s := toString n
  if s.length < width then
    String.mk (List.replicate (width - s.length) '0') ++ s
  else s

/-- Model of `date.toISOString().split('T')[0]` for a valid date. -/
def isoDateString (d : Int) : String :=
  let c := civilFromDays d
  let y := c.1
  let m := c.2.1
  let dd := c.2.2
  (if 0 ≤ y ∧ y ≤ 9999 then padNat 4 y.toNat
   else if y < 0 then "-" ++ padNat 6 (-y).toNat
   else "+" ++ padNat 6 y.toNat) ++
  "-" ++ padNat 2 m.toNat ++ "-" ++ padNat 2 dd.toNat

/-! ## 32-bit hash plumbing -/

/-- JS `ToInt32`: reduce into `[-2^31, 2^31)`. -/
def toInt32 (n : Int) : Int :=
  let m := n.emod 4294967296
  if 2147483648 ≤ m then m - 4294967296 else m

/-- Base-36 digit. -/
def base36Digit (n : Nat) : Char :=
  if n < 10 then Char.ofNat ('0'.toNat + n) else Char.ofNat ('a'.toNat + (n - 10))

/-- Base-36 digit list, most significant first, with a fuel bound on
the digit count (10 digits cover every 32-bit value). -/
def natToBase36Go : Nat → Nat → List Char
  | 0, n => [base36Digit (n % 36)]
  | fuel + 1, n =>
    if n < 36 then [base36Digit n]
    else natToBase36Go fuel (n / 36) ++ [base36Digit (n % 36)]

/-- Base-36 digits of a natural number (model of
`Number.prototype.toString(36)` for integers up to 32 bits). -/
def natToBase36 (n : Nat) : List Char :=
  natToBase36Go 10 n

/-- Model of `n.toString(36)` for a 32-bit integer. -/
def intToBase36String (n : Int) : String :=
  if n < 0 then "-" ++ String.mk (natToBase36 (-n).toNat)
  else String.mk (natToBase36 n.toNat)

/-- `simpleHash` (app.js:1664): per character
`hash = ((hash << 5) - hash) + code; hash = hash & hash`, i.e. with JS
semantics `h' = ToInt32(ToInt32(h * 32) - h + code)`, rendered in base
36. -/
def simpleHash (str : String) : String :=
  intToBase36String
    (str.data.foldl (fun h c => toInt32 (toInt32 (h * 32) - h + (c.toNat : Int))) 0)

/-- Decimal digits of the fraction `rem / den` in `[0, 1)` (at most
`fuel` digits, long division). -/
def fracDigits : Nat → Nat → Nat → List Char
  | 0, _, _ => []
  | fuel + 1, rem, den =>
    if rem = 0 then []
    else base36Digit (rem * 10 / den) :: fracDigits fuel (rem * 10 % den) den

/-- Model of JS number-to-string for the decimal values that occur as
amounts: sign, integer part, and fraction digits without trailing zeros
(at most 20 digits; the exact float64 shortest-round-trip rendering is
not modelled — no claim depends on this string beyond its use as a
deduplication key). -/
def ratToJSString (q : Rat) : String :=
  if q = 0 then "0"
  else
    let n := q.num.natAbs
    let d := q.den
    let fd := fracDigits 20 (n % d) d
    (if q < 0 then "-" else "") ++ toString (n / d) ++
      (if fd.isEmpty then "" else "." ++ String.mk fd)

/-! ## Line Tokenizer (`parseCSVLine`, app.js:382-423) -/

/-- The quote-aware scan loop of `parseCSVLine`: toggle `inQuotes` on
each double quote (the quote itself is not emitted), split on the chosen
delimiter outside quotes, trim each pushed field, and push the final
accumulator at the end of the line. -/
def scanGo (d : Char) (cur : List Char) (q : Bool) (acc : List String) :
    List Char → List String
  | [] => acc ++ [jsTrim ⟨cur⟩]
  | c :: t =>
    if c = '"' then scanGo d cur (!q) acc t
    else if c = d && !q then scanGo d [] q (acc ++ [jsTrim ⟨cur⟩]) t
    else scanGo d (cur ++ [c]) q acc t

/-- The delimiter-detection prefix of `parseCSVLine` (app.js:387-404):
count each candidate delimiter in the raw line, keep the first one with
the strictly largest count via `reduce`, default to comma when no
delimiter occurs. -/
def chooseDelimiterSource (line : String) : Char :=
  let cs := line.data
  let delimiters : List Char := [',', ';', '\t', '|']
  let delimiterCounts := delimiters.map (fun d => (d, cs.count d))
  let best := match delimiterCounts with
    | [] => (',', 0)
    | c0 :: rest =>
      rest.foldl (fun (m cur : Char × Nat) => if cur.2 > m.2 then cur else m) c0
  if best.2 > 0 then best.1 else ','

/-- `parseCSVLine` (app.js:382): detect the delimiter, then run the
quote-aware scan. -/
def parseCSVLine (line : String) : List String :=
  scanGo (chooseDelimiterSource line) [] false [] line.data

/-- Spec-side delimiter selection, written from the spec's words: the
delimiter with the highest raw occurrence count, ties broken in favor of
the first-listed candidate — i.e. the first-listed candidate whose count
is at least the count of every later-listed candidate (comma, whose
count is trivially highest, when all counts are zero). -/
def selectDelimiter (line : String) : Char :=
  let cs := line.data
  let n0 := cs.count ','
  let n1 := cs.count ';'
  let n2 := cs.count '\t'
  let n3 := cs.count '|'
  if n0 ≥ n1 ∧ n0 ≥ n2 ∧ n0 ≥ n3 then ','
  else if n1 ≥ n2 ∧ n1 ≥ n3 then ';'
  else if n2 ≥ n3 then '\t'
  else '|'

/-- Spec-side quote-aware splitter: returns the first field (still being
accumulated) and the later fields of the remaining characters.  A double
quote toggles the quoted flag and is dropped; the delimiter ends a field
only outside quotes; all other characters are kept literally (so an
unterminated quote simply includes the rest of the line). -/
def fieldsOf (d : Char) : Bool → List Char → List Char × List (List Char)
  | _, [] => ([], [])
  | q, c :: t =>
    if c = '"' then fieldsOf d (!q) t
    else if c = d && !q then
      let r := fieldsOf d q t
      ([], r.1 :: r.2)
    else
      let r := fieldsOf d q t
      (c :: r.1, r.2)

/-- Spec-side tokenizer: select the delimiter, split outside quotes,
trim every field. -/
def tokenizeLineSpec (line : String) : List String :=
  let d := selectDelimiter line
  let r := fieldsOf d false line.data
  (r.1 :: r.2).map (fun f => jsTrim ⟨f⟩)

/-! ## Value Parsers (app.js:2326-2426) -/

/-- `parseAmountEnhanced` (app.js:2393): empty input is rejected; a
trimmed string matching the European thousands-dot format has its dots
removed and its comma turned into a dot; a simple European decimal comma
has the comma turned into a dot; otherwise dollar signs, commas and
whitespace are stripped; the result must match `^[+-]?\d*\.?\d+$` and is
then read as a decimal (`parseFloat`, exact here). -/
def parseAmountEnhanced (amountStr : String) : Option Rat :=
  if amountStr = "" then none
  else
    let t := (jsTrim amountStr).data
    let cleanAmount :=
      if euroThousandsMatch t then
        (t.filter (fun c => c ≠ '.')).map (fun c => if c = ',' then '.' else c)
      else if euroSimpleMatch t then
        t.map (fun c => if c = ',' then '.' else c)
      else
        t.filter (fun c => !(c = '$' || c = ',' || isJsWhitespace c))
    if validNumMatch cleanAmount then jsParseFloat ⟨cleanAmount⟩ else none

/-- First `parseDateEnhanced` candidate: the Excel-serial branch.  For
purely numeric trimmed text whose value is strictly between 0 and
100000, the date is `new Date(1900, 0, 1)` plus `serial - 2` days (the
resulting date is always valid, so the branch's `isNaN` guard never
fires). -/
def excelSerialCandidate (dateStr : String) : Option JSDate :=
  if allDigits1 (jsTrim dateStr).data then
    match parseIntJS dateStr with
    | some serial =>
      if 0 < serial ∧ serial < 100000 then
        some (.valid (daysFromCivil 1900 1 1 + (serial - 2)))
      else none
    | none => none
  else none

/-- Second candidate: the generic `new Date(dateStr)` parse guarded by
`isNaN`. -/
def genericDateCandidate (dateStr : String) : Option JSDate :=
  jsNewDate dateStr

/-- Third candidate: `MM/DD/YYYY` via `split('/')`, with two-digit-year
expansion (`< 50` to 2000s, else 1900s) and range guards on month and
day.  A `NaN` year passes the guards and produces the Invalid Date. -/
def mmddCandidate (dateStr : String) : Option JSDate :=
  let parts := splitChar '/' dateStr
  if parts.length = 3 then
    let month := parseIntJS (parts.getD 0 "")
    let day := parseIntJS (parts.getD 1 "")
    let year0 := parseIntJS (parts.getD 2 "")
    let year := year0.map (fun y =>
      if y < 100 then y + (if y < 50 then 2000 else 1900) else y)
    match month, day with
    | some m, some d =>
      if 1 ≤ m ∧ m ≤ 12 ∧ 1 ≤ d ∧ d ≤ 31 then some (jsDateYMD year m d) else none
    | _, _ => none
  else none

/-- Fourth candidate: `DD/MM/YYYY` on the same split, day first. -/
def ddmmCandidate (dateStr : String) : Option JSDate :=
  let parts := splitChar '/' dateStr
  if parts.length = 3 then
    let day := parseIntJS (parts.getD 0 "")
    let month := parseIntJS (parts.getD 1 "")
    let year0 := parseIntJS (parts.getD 2 "")
    let year := year0.map (fun y =>
      if y < 100 then y + (if y < 50 then 2000 else 1900) else y)
    match month, day with
    | some m, some d =>
      if 1 ≤ m ∧ m ≤ 12 ∧ 1 ≤ d ∧ d ≤ 31 then some (jsDateYMD year m d) else none
    | _, _ => none
  else none

/-- Fifth candidate: the strict `YYYY-MM-DD` regex followed by another
`new Date(dateStr)` (dead when the second candidate already failed). -/
def strictIsoCandidate (dateStr : String) : Option JSDate :=
  if strictIsoMatch dateStr.data then jsNewDate dateStr else none

/-- `parseDateEnhanced` (app.js:2326), translated directly: the Excel
serial branch runs first, then the generic parse, then the two slash
formats, then the strict ISO check; `null` when everything fails. -/
def parseDateEnhanced (dateStr : String) : Option JSDate :=
  let serialHit : Option JSDate :=
    if allDigits1 (jsTrim dateStr).data then
      match parseIntJS dateStr with
      | some serial =>
        if 0 < serial ∧ serial < 100000 then
          some (.valid (daysFromCivil 1900 1 1 + (serial - 2)))
        else none
      | none => none
    else none
  match serialHit with
  | some d => some d
  | none =>
    match jsNewDate dateStr with
    | some d => some d
    | none =>
      let parts := splitChar '/' dateStr
      let mmdd : Option JSDate :=
        if parts.length = 3 then
          let month := parseIntJS (parts.getD 0 "")
          let day := parseIntJS (parts.getD 1 "")
          let year0 := parseIntJS (parts.getD 2 "")
          let year := year0.map (fun y =>
            if y < 100 then y + (if y < 50 then 2000 else 1900) else y)
          match month, day with
          | some m, some d =>
            if 1 ≤ m ∧ m ≤ 12 ∧ 1 ≤ d ∧ d ≤ 31 then some (jsDateYMD year m d)
            else none
          | _, _ => none
        else none
      match mmdd with
      | some d => some d
      | none =>
        let ddmm : Option JSDate :=
          if parts.length = 3 then
            let day := parseIntJS (parts.getD 0 "")
            let month := parseIntJS (parts.getD 1 "")
            let year0 := parseIntJS (parts.getD 2 "")
            let year := year0.map (fun y =>
              if y < 100 then y + (if y < 50 then 2000 else 1900) else y)
            match month, day with
            | some m, some d =>
              if 1 ≤ m ∧ m ≤ 12 ∧ 1 ≤ d ∧ d ≤ 31 then some (jsDateYMD year m d)
              else none
            | _, _ => none
          else none
        match ddmm with
        | some d => some d
        | none =>
          if strictIsoMatch dateStr.data then jsNewDate dateStr else none

/-- The candidate order stated by the spec sentence under test: generic
date-string parse first, then — for purely numeric text in the inclusive
range `[1, 100000]` — the Excel serial interpretation, then the
remaining candidates. -/
def parseDateClaimedOrder (dateStr : String) : Option JSDate :=
  match jsNewDate dateStr with
  | some d => some d
  | none =>
    let serialHit : Option JSDate :=
      if allDigits1 (jsTrim dateStr).data then
        match parseIntJS dateStr with
        | some serial =>
          if 1 ≤ serial ∧ serial ≤ 100000 then
            some (.valid (daysFromCivil 1900 1 1 + (serial - 2)))
          else none
        | none => none
      else none
    match serialHit with
    | some d => some d
    | none =>
      match mmddCandidate dateStr with
      | some d => some d
      | none =>
        match ddmmCandidate dateStr with
        | some d => some d
        | none => strictIsoCandidate dateStr

/-! ## Row Integrity Guard (`assertStable`, app.js:1673-1683) -/

/-- The row-count drift message of `assertStable`. -/
def rowCountDriftMsg (stage : String) (nb na : Nat) : String :=
  "[RowGuard] row count changed @ " ++ stage ++ ": " ++ toString nb ++
    " -> " ++ toString na

/-- The column-count drift message of `assertStable`. -/
def colCountDriftMsg (stage : String) (i nb na : Nat) : String :=
  "[RowGuard] column count drift on row " ++ toString i ++ " @ " ++ stage ++
    ": " ++ toString nb ++ " -> " ++ toString na

/-- The per-row loop of `assertStable`: throw at the first index whose
column counts differ. -/
def rowsCheck (stage : String) (i : Nat) :
    List (List String) → List (List String) → Except String Unit
  | [], _ => .ok ()
  | _ :: _, [] => .ok ()
  | b :: bs, a :: as' =>
    if b.length ≠ a.length then
      .error (colCountDriftMsg stage i b.length a.length)
    else rowsCheck stage (i + 1) bs as'

/-- `assertStable` (app.js:1673): throw if the row counts differ, else
throw at the first row whose column count differs; cell contents are
never inspected. -/
def assertStable (before after : List (List String)) (stage : String) :
    Except String Unit :=
  if before.length ≠ after.length then
    .error (rowCountDriftMsg stage before.length after.length)
  else rowsCheck stage 0 before after

/-! ## Data model -/

/-- A Transaction as built by `createTransactionFromRowSafe`
(app.js:2240).  `none` models JS `null`/`undefined`; the source never
sets `posted`, but the counters read it, so it is carried. -/
structure Transaction where
  date : Option JSDate
  description : Option String
  amount : Option Rat
  type : Option String
  rawDate : Option String
  rawAmount : Option String
  posted : Option Bool
deriving DecidableEq, Repr

/-- A ColumnMapping as returned by `findColumnMappingSafe` /
`detectColumnsByPattern`; `-1` is bound to mean unresolved, and
`checkIndex` is `none` when the property is absent from the JS object. -/
structure ColumnMapping where
  headerRow : Int
  dateIndex : Int
  descriptionIndex : Int
  amountIndex : Int
  typeIndex : Int
  checkIndex : Option Int
deriving DecidableEq, Repr

/-- A Counts object.  The JS objects carry either the cash fields or the
credit fields (plus `total` and `activePolicy`); absent properties are
`none`. -/
structure Counts where
  debits : Option Nat
  credits : Option Nat
  checks : Option Nat
  payments : Option Nat
  charges : Option Nat
  refunds : Option Nat
  total : Nat
  activePolicy : String
deriving DecidableEq, Repr

/-- The result object produced by the processing tiers
(`{ transactions, accountType, counts }`). -/
structure ProcessResult where
  transactions : List Transaction
  accountType : String
  counts : Counts
deriving DecidableEq, Repr

/-- JS `row[i]` for a possibly negative index: `undefined` outside
bounds. -/
def rowGet (row : List String) (i : Int) : Option String :=
  if 0 ≤ i then row.get? i.toNat else none

/-! ## Transaction Classifier (app.js:2240-2324) -/

/-- `isCheckTransaction` (app.js:2309): the check-number regex on the
(lower-cased) description, or a nonblank cell in a dedicated
check-number column when the mapping carries one. -/
def isCheckTransaction (description : String) (row : List String)
    (columnMapping : ColumnMapping) : Bool :=
  checkNumTest description ||
    (match columnMapping.checkIndex with
     | some ci =>
       ci ≠ -1 &&
         (match rowGet row ci with
          | some s => s ≠ "" && jsTrim s ≠ ""
          | none => false)
     | none => false)

/-- `determineTransactionTypeSafe` (app.js:2279): explicit type column
first (credit/deposit/payment, check, debit/purchase/withdrawal as
substrings), then check evidence, then the sign of the amount
(negative to credits, else debits).  Reading an `undefined` description
cell throws (`.toLowerCase()` on `undefined`), surfaced as `.error`. -/
def determineTransactionTypeSafe (row : List String)
    (columnMapping : ColumnMapping) (amount : Rat) : Except String String :=
  let explicitHit : Option String :=
    if columnMapping.typeIndex ≠ -1 then
      match rowGet row columnMapping.typeIndex with
      | some cell =>
        let typeStr := jsToLower cell
        if jsIncludes typeStr "credit" || jsIncludes typeStr "deposit" ||
            jsIncludes typeStr "payment" then some "credits"
        else if jsIncludes typeStr "check" then some "checks"
        else if jsIncludes typeStr "debit" || jsIncludes typeStr "purchase" ||
            jsIncludes typeStr "withdrawal" then some "debits"
        else none
      | none => none
    else none
  match explicitHit with
  | some t => .ok t
  | none => do
    let description ←
      if columnMapping.descriptionIndex ≠ -1 then
        match rowGet row columnMapping.descriptionIndex with
        | some s => pure (jsToLower s)
        | none => throw "TypeError: toLowerCase of undefined"
      else pure ""
    if isCheckTransaction description row columnMapping then pure "checks"
    else if amount < 0 then pure "credits"
    else pure "debits"

/-- `createTransactionFromRowSafe` (app.js:2240): parse the date cell
(`null` result drops the row), parse the amount cell (`null` drops the
row), take the description cell or the literal `"Transaction"`, resolve
the type; any thrown error is caught and yields `null`.  Note the date
guard is JS truthiness, so an Invalid Date object passes it. -/
def createTransactionFromRowSafe (row : List String)
    (columnMapping : ColumnMapping) : Option Transaction :=
  let dateStr := rowGet row columnMapping.dateIndex
  let date := match dateStr with
    | some s => parseDateEnhanced s
    | none => none
  match date with
  | none => none
  | some date =>
    let amountStr := rowGet row columnMapping.amountIndex
    let amount := match amountStr with
      | some s => parseAmountEnhanced s
      | none => none
    match amount with
    | none => none
    | some amount =>
      let description :=
        if columnMapping.descriptionIndex ≠ -1 then
          rowGet row columnMapping.descriptionIndex
        else some "Transaction"
      match determineTransactionTypeSafe row columnMapping amount with
      | .error _ => none
      | .ok ty =>
        some ⟨some date, description, some amount, some ty, dateStr, amountStr,
          none⟩

/-! ## Counting (app.js:2431-2598) -/

/-- `createTransactionHash` (app.js:2556): ISO date (empty for a null
date), lower-cased trimmed description, amount (`|| 0`), lower-cased
type, joined with bars and run through `simpleHash`.  Calling
`toISOString` on an Invalid Date throws a RangeError. -/
def createTransactionHash (t : Transaction) : Except String String :=
  match t.date with
  | some .invalid => .error "RangeError: Invalid time value"
  | d =>
    let dateS := match d with
      | some (.valid days) => isoDateString days
      | _ => ""
    let description := jsTrim (jsToLower (t.description.getD ""))
    let amount := t.amount.getD 0
    let ty := jsToLower (t.type.getD "")
    .ok (simpleHash (dateS ++ "|" ++ description ++ "|" ++ ratToJSString amount ++
      "|" ++ ty))

/-- The duplicate filter shared by both counters: keep the first
transaction per hash value (a thrown hash error propagates). -/
def dedupByHash (seen : List String) :
    List Transaction → Except String (List Transaction)
  | [] => .ok []
  | t :: rest => do
    let h ← createTransactionHash t
    if seen.contains h then dedupByHash seen rest
    else do
      let tail ← dedupByHash (h :: seen) rest
      pure (t :: tail)

/-- The pending/valid filter shared by both counters: drop rows without
a (truthy) date or with a null amount; when any transaction is posted
(`posted !== false`), drop the ones explicitly marked pending. -/
def validForCounting (transactions : List Transaction) : List Transaction :=
  let anyPosted := transactions.any (fun t => t.posted ≠ some false)
  transactions.filter (fun t =>
    if t.date.isNone || t.amount.isNone then false
    else if anyPosted && t.posted = some false then false
    else true)

/-- The per-transaction tallies of the cash-policy loop body. -/
structure CashDelta where
  checks : Nat
  debits : Nat
  credits : Nat
deriving DecidableEq, Repr

/-- Loop body of `countCashTransactions` (app.js:2477-2499) for one
transaction: check evidence increments `checks` (without `continue`);
then a negative amount or a space-delimited debit keyword increments
`debits`; else a positive amount or a space-delimited credit keyword
increments `credits`. -/
def cashDelta (t : Transaction) : CashDelta :=
  let desc := jsToLower (t.description.getD "")
  let typ := jsToLower (t.type.getD "")
  let text := desc ++ " " ++ typ
  let k := if isCheckTransaction desc [] ⟨0, 0, 0, 0, 0, none⟩ then 1 else 0
  if (match t.amount with | some a => a < 0 | none => false) ||
      spaceDelimTest ["withdraw", "debit", "fee", "atm", "ach out", "pos",
        "check"] text then
    ⟨k, 1, 0⟩
  else if (match t.amount with | some a => a > 0 | none => false) ||
      spaceDelimTest ["deposit", "credit", "refund", "interest", "ach in"]
        text then
    ⟨k, 0, 1⟩
  else ⟨k, 0, 0⟩

/-- `countCashTransactions` (app.js:2459): filter, deduplicate, tally,
and return `{debits, credits, checks, total: debits + credits,
activePolicy: 'cash'}`. -/
def countCashTransactions (transactions : List Transaction) :
    Except String Counts := do
  let uniqueTransactions ← dedupByHash [] (validForCounting transactions)
  let z := uniqueTransactions.foldl
    (fun (acc : CashDelta) t =>
      let d := cashDelta t
      ⟨acc.checks + d.checks, acc.debits + d.debits, acc.credits + d.credits⟩)
    ⟨0, 0, 0⟩
  pure ⟨some z.debits, some z.credits, some z.checks, none, none, none,
    z.debits + z.credits, "cash"⟩

/-- Loop body of `countCreditTransactions` (app.js:2527-2550) for one
transaction, returning `(payments, refunds, charges)` increments. -/
def creditDelta (t : Transaction) : Nat × Nat × Nat :=
  let text := jsToLower ((t.description.getD "") ++ " " ++ (t.type.getD ""))
  if wbTest [litOptS "payment", litGapWs "auto" "pay", lit "thank you",
      litOptSpace "bill" "pay"] text then
    (1, 0, 0)
  else if wbTest [lit "refund", lit "return", lit "reversal",
      lit "credit issued"] text ||
      ((match t.amount with | some a => a > 0 | none => false) &&
        wbTest [litOptS "credit"] text) then
    (0, 1, 0)
  else if (match t.amount with | some a => a < 0 | none => false) ||
      wbTest [lit "purchase", lit "charge", lit "fee", lit "interest",
        lit "finance charge"] text ||
      wbTest [litOptS "purchase"] text then
    (0, 0, 1)
  else (0, 0, 0)

/-- `countCreditTransactions` (app.js:2508): filter, deduplicate, tally,
and return `{payments, charges, refunds, total: payments + charges +
refunds, activePolicy: 'credit'}`. -/
def countCreditTransactions (transactions : List Transaction) :
    Except String Counts := do
  let uniqueTransactions ← dedupByHash [] (validForCounting transactions)
  let z := uniqueTransactions.foldl
    (fun (acc : Nat × Nat × Nat) t =>
      let d := creditDelta t
      (acc.1 + d.1, acc.2.1 + d.2.1, acc.2.2 + d.2.2))
    (0, 0, 0)
  pure ⟨none, none, none, some z.1, some z.2.2, some z.2.1,
    z.1 + z.2.2 + z.2.1, "credit"⟩

/-- `calculatePolicyConfidence` (app.js:2569): over transactions with a
truthy date and non-null amount, the fraction carrying an unambiguous
signal — for cash, a nonzero amount or any of seven substrings; for
credit, any of nine word-bounded keywords; `0` for an empty valid set. -/
def calculatePolicyConfidence (transactions : List Transaction)
    (policy : String) : Rat :=
  let validTransactions := transactions.filter (fun t =>
    t.date.isSome && t.amount.isSome)
  if validTransactions.length = 0 then 0
  else
    let confidentCount := validTransactions.countP (fun t =>
      let desc := jsToLower (t.description.getD "")
      let typ := jsToLower (t.type.getD "")
      let text := desc ++ " " ++ typ
      if policy = "cash" then
        (match t.amount with | some a => a < 0 || a > 0 | none => false) ||
          ["withdraw", "deposit", "debit", "credit", "check", "fee",
            "interest"].any (fun k => containsSubL k.data text.data)
      else if policy = "credit" then
        wbTest [lit "payment", lit "charge", lit "refund", lit "purchase",
          lit "autopay", lit "thank you", lit "bill pay", lit "return",
          lit "reversal"] text
      else false)
    mkRat confidentCount validTransactions.length

/-- `countTransactions` (app.js:2431): dispatch on the account type; for
an unspecified (`unknown`) type, run both counters, compare the two
policy confidences, and keep the cash result only when its confidence is
strictly greater. -/
def countTransactions (transactions : List Transaction)
    (accountType : String) : Except String Counts :=
  if accountType = "cash" then countCashTransactions transactions
  else if accountType = "credit" then countCreditTransactions transactions
  else do
    let cashCounts ← countCashTransactions transactions
    let creditCounts ← countCreditTransactions transactions
    let cashConfidence := calculatePolicyConfidence transactions "cash"
    let creditConfidence := calculatePolicyConfidence transactions "credit"
    if cashConfidence > creditConfidence then
      pure { cashCounts with activePolicy := "cash" }
    else
      pure { creditCounts with activePolicy := "credit" }

/-! ## Column Mapper (app.js:1737-2238) -/

/-- One matrix row of `levenshteinDistance` (app.js:2216): for row
character `c`, walk the columns of `str1` carrying the previous row's
tail, the diagonal entry and the entry just computed; equal characters
copy the diagonal, others take `1 + min` of the three neighbors. -/
def levRowAux (c : Char) : List Char → List Nat → Nat → Nat → List Nat
  | [], _, _, _ => []
  | _ :: _, [], _, _ => []
  | x :: xs, p :: ps, diag, left =>
    let v := if c = x then diag else 1 + min diag (min left p)
    v :: levRowAux c xs ps p v

/-- `levenshteinDistance` (app.js:2216): the Wagner-Fischer matrix,
filled row by row exactly as in the source; the answer is
`matrix[str2.length][str1.length]`. -/
def levenshteinDistance (str1 str2 : String) : Nat :=
  let s1 := str1.data
  let row0 := List.range (s1.length + 1)
  let res := str2.data.foldl (fun (st : List Nat × Nat) c =>
    let i := st.2 + 1
    let newRow := i :: (match st.1 with
      | p0 :: ptail => levRowAux c s1 ptail p0 i
      | [] => [])
    (newRow, i)) (row0, 0)
  res.1.getLast?.getD 0

/-- Three consecutive characters all satisfying `p` (regex
`[class]{3,}` searched anywhere). -/
def hasRun3 (p : Char → Bool) : List Char → Bool
  | a :: b :: c :: t => (p a && p b && p c) || hasRun3 p (b :: c :: t)
  | _ => false

/-- Four consecutive equal non-newline characters (regex
`(.)\1{3,}` searched anywhere). -/
def hasRepeat4 : List Char → Bool
  | a :: b :: c :: d :: t =>
    (a = b && a = c && a = d && a ≠ '\n' && a ≠ '\r') ||
      hasRepeat4 (b :: c :: d :: t)
  | _ => false

/-- `isGibberish` (app.js:2013): no letters, too short (1-2 chars), a
run of three special characters, four repeated characters, only digits,
or only special characters. -/
def isGibberish (text : String) : Bool :=
  let cs := text.data
  cs.all (fun c => !c.isAlpha) ||
  (decide (1 ≤ cs.length) && decide (cs.length ≤ 2) &&
    cs.all (fun c => c ≠ '\n' && c ≠ '\r')) ||
  hasRun3 (fun c => !(c.isAlpha || c.isDigit || isJsWhitespace c || c = '-' ||
    c = '_')) cs ||
  hasRepeat4 cs ||
  allDigits1 cs ||
  (decide (1 ≤ cs.length) && cs.all (fun c => !(c.isAlpha || c.isDigit)))

/-- JS `text.split(/\s+/)` (each whitespace run is one separator;
leading or trailing whitespace yields an empty first or last element).
`inWs` records being inside a separator run whose segment was already
emitted. -/
def wsSplitGo (inWs : Bool) (cur : List Char) : List Char → List (List Char)
  | [] => [cur.reverse]
  | c :: t =>
    if isJsWhitespace c then
      if inWs then wsSplitGo true cur t
      else cur.reverse :: wsSplitGo true [] t
    else wsSplitGo false (c :: cur) t

/-- Word-bounded infix occurrence of `needle` in `hay` (the regex
`\btarget\b` for targets that start and end with word characters). -/
def wbInfix (needle hay : List Char) : Bool :=
  wbScanL [litM needle] none hay

/-- `hasWordBoundaryMatch` (app.js:2204): split the text on whitespace;
a word matches if it equals the target or contains it with word
boundaries. -/
def hasWordBoundaryMatch (text target : String) : Bool :=
  (wsSplitGo false [] text.data).any (fun w =>
    decide (w = target.data) || wbInfix target.data w)

/-- Synonym list for the date column. -/
def dateSynonyms : List String :=
  ["date", "transaction date", "posting date", "trans date", "txn date",
   "transaction_date", "posting_date", "trans_date", "txn_date",
   "fecha", "data", "datum"]

/-- Synonym list for the description column. -/
def descriptionSynonyms : List String :=
  ["description", "memo", "payee", "merchant", "vendor", "payee name",
   "transaction description", "memo description", "payee_name",
   "merchant_name", "descripcion", "beschreibung", "descricao"]

/-- Synonym list for the amount column. -/
def amountSynonyms : List String :=
  ["amount", "transaction amount", "debit", "credit", "balance",
   "transaction_amount", "debit_amount", "credit_amount", "balance_amount",
   "importe", "betrag", "valor"]

/-- Synonym list for the type column. -/
def typeSynonyms : List String :=
  ["type", "transaction type", "category", "classification",
   "transaction_type", "category_type", "classification_type",
   "tipo", "categoria", "art"]

/-- Inner loop of `findColumnIndexFuzzy` (app.js:1995): skip short or
gibberish headers; otherwise the first header matching some synonym
exactly, by word boundary, or within Levenshtein distance 1 wins. -/
def fuzzyGo (possibleNames : List String) (i : Nat) : List String → Int
  | [] => -1
  | h :: rest =>
    let header := jsTrim (jsToLower h)
    if header.length < 2 || isGibberish header then
      fuzzyGo possibleNames (i + 1) rest
    else if possibleNames.any (fun name =>
        let nl := jsToLower name
        header = nl || hasWordBoundaryMatch header nl ||
          decide (levenshteinDistance header nl ≤ 1)) then
      (i : Int)
    else fuzzyGo possibleNames (i + 1) rest

/-- `findColumnIndexFuzzy` (app.js:1995). -/
def findColumnIndexFuzzy (headers : List String)
    (possibleNames : List String) : Int :=
  fuzzyGo possibleNames 0 headers

/-- Split on every single occurrence of `/`, `-` or `.` (the regex
`split(/[\/\-\.]/)` in `isValidDate`). -/
def splitAnySepGo (cur : List Char) : List Char → List (List Char)
  | [] => [cur.reverse]
  | c :: t =>
    if c = '/' || c = '-' || c = '.' then cur.reverse :: splitAnySepGo [] t
    else splitAnySepGo (c :: cur) t

/-- `isValidDate` (app.js:2089): purely numeric text is a valid Excel
serial iff in `[1, 100000]`; otherwise the trimmed text must have length
8-12, match one of five date patterns, split into three parts whose
year/month/day (assigned by format) lie in `[1900, 2030]`, `[1, 12]`,
`[1, 31]`. -/
def isValidDate (dateStr : String) : Bool :=
  if dateStr = "" then false
  else
    let trimmed := (jsTrim dateStr).data
    if allDigits1 trimmed then
      match parseIntJS ⟨trimmed⟩ with
      | some serial => decide (1 ≤ serial) && decide (serial ≤ 100000)
      | none => false
    else if trimmed.length < 8 || trimmed.length > 12 then false
    else if !(dmyMatch '/' trimmed || ymdMatch '-' trimmed ||
        dmyMatch '-' trimmed || dmyMatch '.' trimmed ||
        ymdMatch '/' trimmed) then false
    else
      let parts := (splitAnySepGo [] trimmed).map (fun l => (⟨l⟩ : String))
      if parts.length = 3 then
        let yearFirst := ymdMatch '-' trimmed || ymdMatch '/' trimmed
        let year := parseIntJS (if yearFirst then parts.getD 0 ""
          else parts.getD 2 "")
        let month := parseIntJS (parts.getD 1 "")
        let day := parseIntJS (if yearFirst then parts.getD 2 ""
          else parts.getD 0 "")
        match year, month, day with
        | some y, some m, some d =>
          !(y < 1900 || y > 2030) && !(m < 1 || m > 12) && !(d < 1 || d > 31)
        | _, _, _ => false
      else false

/-- `isValidAmount` (app.js:2160): trimmed length 1-15, one of six
amount patterns, then the `[$,]`-stripped (or comma-to-dot for simple
European) text must `parseFloat` to a value with absolute value at most
1,000,000 and at least one cent (or exactly zero). -/
def isValidAmount (amountStr : String) : Bool :=
  if amountStr = "" then false
  else
    let trimmed := (jsTrim amountStr).data
    if trimmed.length < 1 || trimmed.length > 15 then false
    else if !(numOptFracMatch trimmed || dollarNumMatch trimmed ||
        thousandsSepMatch trimmed || euroValidAmountMatch trimmed ||
        twoPlacesMatch trimmed || euroSimpleMatch trimmed) then false
    else
      let cleanAmount :=
        if euroSimpleMatch trimmed then
          trimmed.map (fun c => if c = ',' then '.' else c)
        else trimmed.filter (fun c => !(c = '$' || c = ','))
      match jsParseFloat ⟨cleanAmount⟩ with
      | none => false
      | some amount =>
        if |amount| > 1000000 then false
        else if |amount| < mkRat 1 100 && amount ≠ 0 then false
        else true

/-- `validateHeaderRow` (app.js:2027): sample up to the next five lines
that are nonblank and long enough; the header is accepted iff at least
half (rounded up) of the sampled rows have a valid date cell and a valid
amount cell. -/
def validateHeaderRow (lines : List String) (headerRowIndex : Nat)
    (dateIndex amountIndex : Int) : Bool :=
  let sampleRows := [1, 2, 3, 4, 5].filterMap (fun i =>
    let rowIndex := headerRowIndex + i
    if rowIndex < lines.length then
      let line := jsTrim (lines.getD rowIndex "")
      if line ≠ "" then
        let row := parseCSVLine line
        if (row.length : Int) > max dateIndex amountIndex then some row
        else none
      else none
    else none)
  if sampleRows.length = 0 then false
  else
    let validDataCount := sampleRows.countP (fun row =>
      isValidDate (row.getD dateIndex.toNat "") &&
        isValidAmount (row.getD amountIndex.toNat ""))
    let requiredValidRows := (sampleRows.length + 1) / 2
    validDataCount ≥ requiredValidRows

/-- One iteration of the header-search loop of `findColumnMappingSafe`
(app.js:1758-1815): skip blank or too-sparse rows; resolve the four
roles fuzzily; if date and amount resolved and the row validates against
the following data rows, return the mapping. -/
def tryHeaderRow (lines : List String) (rowIndex : Nat) :
    Option ColumnMapping :=
  let line := jsTrim (lines.getD rowIndex "")
  if line = "" then none
  else
    let headers := parseCSVLine line
    let nonEmptyHeaders := headers.filter (fun h => h ≠ "" && jsTrim h ≠ "")
    if nonEmptyHeaders.length < 2 then none
    else
      let dateIndex := findColumnIndexFuzzy headers dateSynonyms
      let descriptionIndex := findColumnIndexFuzzy headers descriptionSynonyms
      let amountIndex := findColumnIndexFuzzy headers amountSynonyms
      let typeIndex := findColumnIndexFuzzy headers typeSynonyms
      if dateIndex ≠ -1 && amountIndex ≠ -1 then
        if validateHeaderRow lines rowIndex dateIndex amountIndex then
          some ⟨rowIndex, dateIndex, descriptionIndex, amountIndex, typeIndex,
            none⟩
        else none
      else none

/-- The header-search loop over row indices. -/
def headerScan (lines : List String) : List Nat → Option ColumnMapping
  | [] => none
  | i :: rest =>
    match tryHeaderRow lines i with
    | some m => some m
    | none => headerScan lines rest

/-- A column analysis record of `analyzeColumnPattern`. -/
structure ColumnAnalysis where
  columnIndex : Int
  type : String
  confidence : Rat
  sampleValues : List String
deriving DecidableEq, Repr

/-- The date patterns of `analyzeColumnPattern` (app.js:1898). -/
def analyzeDateHit (cell : String) : Bool :=
  let t := (jsTrim cell).data
  dmyMatch '/' t || ymdMatch '-' t || dmyMatch '-' t || dmyMatch '.' t

/-- The amount patterns of `analyzeColumnPattern` (app.js:1916). -/
def analyzeAmountHit (cell : String) : Bool :=
  let t := (jsTrim cell).data
  numOptFracMatch t || dollarNumMatch t || thousandsSepMatch t ||
    twoPlacesMatch t

/-- `analyzeColumnPattern` (app.js:1896): classify a column as date,
amount (patterns plus `isValidAmount`), description (length over 5, not
number-like), or type (length 1-20, not number-like), with confidence
the fraction of matching cells. -/
def analyzeColumnPattern (columnData : List String) (columnIndex : Int) :
    ColumnAnalysis :=
  let n := columnData.length
  let dateMatches := columnData.filter analyzeDateHit
  if dateMatches.length > 0 then
    ⟨columnIndex, "date", mkRat dateMatches.length n,
      columnData.take 3⟩
  else
    let amountMatches := columnData.filter (fun cell =>
      analyzeAmountHit cell && isValidAmount (jsTrim cell))
    if amountMatches.length > 0 then
      ⟨columnIndex, "amount", mkRat amountMatches.length n,
        columnData.take 3⟩
    else
      let descriptionMatches := columnData.filter (fun cell =>
        let t := (jsTrim cell).data
        decide (t.length > 5) && !unsignedNumMatch t && !analyzeAmountHit cell)
      if descriptionMatches.length > 0 then
        ⟨columnIndex, "description", mkRat descriptionMatches.length n,
          columnData.take 3⟩
      else
        let typeMatches := columnData.filter (fun cell =>
          let t := (jsTrim cell).data
          decide (t.length ≤ 20) && decide (t.length > 0) &&
            !unsignedNumMatch t)
        if typeMatches.length > 0 then
          ⟨columnIndex, "type", mkRat typeMatches.length n,
            columnData.take 3⟩
        else ⟨columnIndex, "unknown", 0, columnData.take 3⟩

/-- `findBestColumnMatch` (app.js:1968): among the analyses of the
target type, the first one with the strictly highest confidence
(`reduce`), `-1` when none. -/
def findBestColumnMatch (columnAnalysis : List ColumnAnalysis)
    (targetType : String) : Int :=
  match columnAnalysis.filter (fun a => a.type = targetType) with
  | [] => -1
  | c0 :: rest =>
    (rest.foldl (fun (best cur : ColumnAnalysis) =>
      if cur.confidence > best.confidence then cur else best) c0).columnIndex

/-- `detectColumnsByPattern` (app.js:1830): sample up to twenty nonblank
rows with at least three columns (fail below three samples); analyze
each nonempty column; resolve all four roles by best match; require date
and amount, and return a mapping with the `-1` no-header sentinel. -/
def detectColumnsByPattern (lines : List String) : Option ColumnMapping :=
  let sampleRows := (((lines.take 20).map jsTrim).filter (fun l => l ≠ "")
    |>.map parseCSVLine).filter (fun r => r.length ≥ 3)
  if sampleRows.length < 3 then none
  else
    let columnCount := (sampleRows.map List.length).foldl max 0
    let columnAnalysis := (List.range columnCount).filterMap (fun (colIndex : Nat) =>
      let columnData := (sampleRows.map (fun row => row.getD colIndex "")).filter
        (fun cell => jsTrim cell ≠ "")
      if columnData.length = 0 then none
      else some (analyzeColumnPattern columnData (Int.ofNat colIndex)))
    let dateIndex := findBestColumnMatch columnAnalysis "date"
    let amountIndex := findBestColumnMatch columnAnalysis "amount"
    let descriptionIndex := findBestColumnMatch columnAnalysis "description"
    let typeIndex := findBestColumnMatch columnAnalysis "type"
    if dateIndex = -1 || amountIndex = -1 then none
    else some ⟨-1, dateIndex, descriptionIndex, amountIndex, typeIndex, none⟩

/-- A line is meaningful when its trimmed text tokenizes to at least one
nonempty cell (app.js:1741-1748). -/
def meaningfulLine (line : String) : Bool :=
  let trimmed := jsTrim line
  if trimmed = "" then false
  else
    decide (1 ≤ ((parseCSVLine trimmed).filter
      (fun cell => cell ≠ "" && jsTrim cell ≠ "")).length)

/-- The `InsufficientData` error message of `findColumnMappingSafe`. -/
def insufficientDataMsg : String :=
  "Insufficient data: Your file appears to contain mostly empty cells. " ++
  "Please ensure your spreadsheet has proper transaction data with at " ++
  "least Date and Amount columns."

/-- The `NoHeaderFound` error message of `findColumnMappingSafe`. -/
def noHeaderFoundMsg : String :=
  "No valid transaction data found. Please ensure your file contains:\n" ++
  "• A header row with \"Date\" and \"Amount\" columns\n" ++
  "• At least one row of transaction data\n" ++
  "• Proper date formats (MM/DD/YYYY, etc.)\n" ++
  "• Numeric amounts"

/-- `findColumnMappingSafe` (app.js:1737): fail fast with
`InsufficientData` when no meaningful line exists; otherwise search the
first forty rows for a validated header; otherwise fall back to
pattern-based detection; otherwise fail with the no-header error. -/
def findColumnMappingSafe (lines : List String) :
    Except String ColumnMapping :=
  if (lines.filter meaningfulLine).length < 1 then
    .error insufficientDataMsg
  else
    match headerScan lines (List.range (min 40 lines.length)) with
    | some m => .ok m
    | none =>
      match detectColumnsByPattern lines with
      | some m => .ok m
      | none => .error noHeaderFoundMsg

/-! ## Recovery Orchestrator (app.js:2773-2948)

The four tier bodies (`processFileEnhanced`, `processFileRelaxed`,
`processFileGreedy`, `processFileMinimal`) read the uploaded file
asynchronously, so each tier is abstracted as a function from the input
to `Except String ProcessResult`; the orchestration (the try/catch
chain, the fallback markers, and the final catch-all) is translated
directly. -/

/-- Insertion into a sorted list of rationals (ascending). -/
def insertSorted (a : Rat) : List Rat → List Rat
  | [] => [a]
  | b :: t => if a ≤ b then a :: b :: t else b :: insertSorted a t

/-- Ascending sort (model of `amounts.sort((a, b) => a - b)`). -/
def sortRats (l : List Rat) : List Rat :=
  l.foldr insertSorted []

/-- `performQualityChecks` (app.js:2885): outlier detection by median
absolute deviation, implausible-total check, and the credit-fee semantic
check. -/
def performQualityChecks (transactions : List Transaction)
    (counts : Counts) : List String :=
  let w1 : List String :=
    if transactions.length > 0 then
      let amounts := (transactions.map (fun t => |t.amount.getD 0|)).filter
        (fun a => a > 0)
      if amounts.length > 0 then
        let sorted := sortRats amounts
        let median := sorted.getD (amounts.length / 2) 0
        let mad := (amounts.foldl (fun s a => s + |a - median|) 0) /
          (amounts.length : Rat)
        let threshold := median + 3 * mad
        let outliers := transactions.filter (fun t => |t.amount.getD 0| > threshold)
        if outliers.length > 0 then
          ["Found " ++ toString outliers.length ++
            " outlier transactions (>3× MAD)"]
        else []
      else []
    else []
  let w2 : List String :=
    if counts.total > 0 then
      if counts.total > 1000000 then
        ["Total amount seems unusually high - please verify"]
      else []
    else []
  let w3 : List String :=
    if (transactions.filter (fun t =>
        t.type = some "credits" &&
          jsIncludes (jsToLower (t.description.getD "")) "fee")).length > 0 then
      ["Credit fees detected - these should be charges, not credits"]
    else []
  w1 ++ w2 ++ w3

/-- `processFileWithFailsafes` (app.js:2773): try tier 1; on any thrown
error push `relaxedMapper` and try tier 2; then `greedyBandSearch` and
tier 3; then `minimalMode` and tier 4, whose outcome is final.  The
returned list is the updated `usedFallbacks`. -/
def processFileWithFailsafes {α : Type} (t1 t2 t3 t4 : α → Except String ProcessResult)
    (file : α) (usedFallbacks : List String) :
    Except String ProcessResult × List String :=
  match t1 file with
  | .ok r => (.ok r, usedFallbacks)
  | .error _ =>
    let fl1 := usedFallbacks ++ ["relaxedMapper"]
    match t2 file with
    | .ok r => (.ok r, fl1)
    | .error _ =>
      let fl2 := fl1 ++ ["greedyBandSearch"]
      match t3 file with
      | .ok r => (.ok r, fl2)
      | .error _ =>
        let fl3 := fl2 ++ ["minimalMode"]
        (t4 file, fl3)

/-- The empty result object of the final catch of
`processFileWithRecovery`. -/
def emptyRecoveryResult : ProcessResult :=
  ⟨[], "unknown", ⟨none, none, none, none, none, none, 0, "unknown"⟩⟩

/-- `processFileWithRecovery` (app.js:2923): run the failsafe chain; on
success run the quality checks (pushing a marker when they warn); on any
error return the empty result instead of rethrowing. -/
def processFileWithRecovery {α : Type} (t1 t2 t3 t4 : α → Except String ProcessResult)
    (file : α) (usedFallbacks : List String) :
    ProcessResult × List String :=
  match processFileWithFailsafes t1 t2 t3 t4 file usedFallbacks with
  | (.ok r, fl) =>
    let qualityWarnings := performQualityChecks r.transactions r.counts
    (r, if qualityWarnings.length > 0 then fl ++ ["qualityWarnings"] else fl)
  | (.error _, fl) => (emptyRecoveryResult, fl)

/-! ## Helper lemmas -/

/-- `parseDateEnhanced` is definitionally the ordered chain of its five
candidates. -/
theorem parseDateEnhanced_eq_chain (s : String) :
    parseDateEnhanced s =
      (match excelSerialCandidate s with
       | some d => some d
       | none =>
         match genericDateCandidate s with
         | some d => some d
         | none =>
           match mmddCandidate s with
           | some d => some d
           | none =>
             match ddmmCandidate s with
             | some d => some d
             | none => strictIsoCandidate s) := rfl

/-! ## Claim theorems -/

/-- Claim C2 (code_bug evaluation): on the Scenario C amount cell
`"-1.234,56"`, `parseAmountEnhanced` returns `-1.23456` — the leading
minus sign prevents both European-format regexes from matching, so the
fallback strips the comma as if it were a thousands separator and reads
`-1.23456` — while the unsigned `"1.234,56"` is converted correctly to
`1234.56`.  The claimed result `-1234.56` differs from the actual one. -/
theorem c2_negative_european_misparsed :
    parseAmountEnhanced "-1.234,56" = some (mkRat (-123456) 100000) ∧
    parseAmountEnhanced "1.234,56" = some (mkRat 123456 100) ∧
    mkRat (-123456) 100000 ≠ mkRat (-123456) 100 := by
  refine ⟨by decide, by decide, by decide⟩

/-- Claim C9 (code_bug evaluation): for the row
`["12/25/xyz", "Store", "50.00"]` under the mapping
`{headerRow: 0, date: 0, description: 1, amount: 2, type: -1}`, the
classifier returns a transaction (not `null`) whose date is the Invalid
Date: the `MM/DD/YYYY` branch builds `new Date(NaN, 11, 25)` from the
non-numeric year and returns it without an `isNaN` check, and the
`!date` truthiness guard does not reject an Invalid Date object.  This
violates the data-model invariant that every returned transaction has a
valid calendar date. -/
theorem c9_invalid_date_transaction :
    createTransactionFromRowSafe ["12/25/xyz", "Store", "50.00"]
        ⟨0, 0, 1, 2, -1, none⟩ =
      some ⟨some .invalid, some "Store", some 50, some "debits",
        some "12/25/xyz", some "50.00", none⟩ := by
  decide

/-- Claim C3 (counterexample): the spec's candidate order (generic parse
first, Excel serial second) disagrees with the code on the purely
numeric input `"2024"`: the code's Excel-serial branch fires first and
yields 1905-07-16 (day −23545), while the claimed order would let the
generic ISO parse yield 2024-01-01 (day 19723). -/
theorem c3_excel_serial_first_cex :
    parseDateEnhanced "2024" ≠ parseDateClaimedOrder "2024" ∧
    parseDateEnhanced "2024" = some (.valid (-23545)) ∧
    parseDateClaimedOrder "2024" = some (.valid 19723) := by
  refine ⟨by decide, by decide, by decide⟩

/-- Claim C3 (amended): `parseDateEnhanced` attempts its candidates in
the order Excel serial (purely numeric text with value strictly between
0 and 100000, anchored at `new Date(1900, 0, 1)` plus `serial − 2`
days), then the generic date-string parse, then `MM/DD/YYYY`, then
`DD/MM/YYYY` (both with 2-digit-year expansion), then strict
`YYYY-MM-DD`; the first successful candidate wins and a miss on every
candidate yields `null`. -/
theorem c3_parse_date_order :
    (∀ s d, excelSerialCandidate s = some d → parseDateEnhanced s = some d) ∧
    (∀ s d, excelSerialCandidate s = none → genericDateCandidate s = some d →
      parseDateEnhanced s = some d) ∧
    (∀ s d, excelSerialCandidate s = none → genericDateCandidate s = none →
      mmddCandidate s = some d → parseDateEnhanced s = some d) ∧
    (∀ s d, excelSerialCandidate s = none → genericDateCandidate s = none →
      mmddCandidate s = none → ddmmCandidate s = some d →
      parseDateEnhanced s = some d) ∧
    (∀ s d, excelSerialCandidate s = none → genericDateCandidate s = none →
      mmddCandidate s = none → ddmmCandidate s = none →
      strictIsoCandidate s = some d → parseDateEnhanced s = some d) ∧
    (∀ s, excelSerialCandidate s = none → genericDateCandidate s = none →
      mmddCandidate s = none → ddmmCandidate s = none →
      strictIsoCandidate s = none → parseDateEnhanced s = none) := by
  refine ⟨fun s d h1 => by rw [parseDateEnhanced_eq_chain, h1],
    fun s d h1 h2 => by rw [parseDateEnhanced_eq_chain, h1, h2],
    fun s d h1 h2 h3 => by rw [parseDateEnhanced_eq_chain, h1, h2, h3],
    fun s d h1 h2 h3 h4 => by rw [parseDateEnhanced_eq_chain, h1, h2, h3, h4],
    fun s d h1 h2 h3 h4 h5 => by
      rw [parseDateEnhanced_eq_chain, h1, h2, h3, h4, h5],
    fun s h1 h2 h3 h4 h5 => by
      rw [parseDateEnhanced_eq_chain, h1, h2, h3, h4, h5]⟩

/-- Witness for C3: on `"44927"` the Excel-serial candidate succeeds and
`parseDateEnhanced` returns exactly its value. -/
theorem c3_parse_date_order_witness :
    excelSerialCandidate "44927" = some (.valid (-25567 + 44925)) ∧
    parseDateEnhanced "44927" = some (.valid (-25567 + 44925)) := by
  have h : excelSerialCandidate "44927" = some (.valid (-25567 + 44925)) := by
    decide
  exact ⟨h, c3_parse_date_order.1 "44927" _ h⟩

/-- Claim C5: when all four recovery tiers throw, the orchestrator
returns the empty-result object — no transactions, account type
`unknown`, counts `{total: 0, activePolicy: 'unknown'}` — together with
the three fallback markers, instead of propagating any exception; being
a total function, it always returns a result. -/
theorem c5_recovery_returns_empty_result {α : Type}
    (t1 t2 t3 t4 : α → Except String ProcessResult) (file : α)
    (fl : List String) (e1 e2 e3 e4 : String)
    (h1 : t1 file = .error e1) (h2 : t2 file = .error e2)
    (h3 : t3 file = .error e3) (h4 : t4 file = .error e4) :
    processFileWithRecovery t1 t2 t3 t4 file fl =
      (emptyRecoveryResult,
        fl ++ ["relaxedMapper", "greedyBandSearch", "minimalMode"]) ∧
    emptyRecoveryResult.transactions = [] ∧
    emptyRecoveryResult.accountType = "unknown" ∧
    emptyRecoveryResult.counts.total = 0 ∧
    emptyRecoveryResult.counts.activePolicy = "unknown" := by
  refine ⟨?_, rfl, rfl, rfl, rfl⟩
  simp only [processFileWithRecovery, processFileWithFailsafes, h1, h2, h3, h4,
    List.append_assoc]
  rfl

/-- Witness for C5 at concrete always-failing tiers. -/
theorem c5_recovery_returns_empty_result_witness :
    ((fun (_ : Unit) => (.error "x" : Except String ProcessResult)) () =
      .error "x") ∧
    processFileWithRecovery (fun (_ : Unit) => .error "x") (fun _ => .error "x")
        (fun _ => .error "x") (fun _ => .error "x") () [] =
      (emptyRecoveryResult,
        [] ++ ["relaxedMapper", "greedyBandSearch", "minimalMode"]) :=
  ⟨rfl, (c5_recovery_returns_empty_result (fun _ => .error "x")
    (fun _ => .error "x") (fun _ => .error "x") (fun _ => .error "x") () []
    "x" "x" "x" "x" rfl rfl rfl rfl).1⟩

/-- Claim C6 (counterexample): `InsufficientData` is not non-retryable —
the failsafe chain catches it indiscriminately and re-attempts
processing at tier 2: with a tier 1 that throws exactly the
`InsufficientData` message and a tier 2 that succeeds, the chain runs
tier 2 and returns its result (recording the `relaxedMapper`
fallback). -/
theorem c6_insufficient_data_retried_cex :
    processFileWithFailsafes
        (fun (_ : Unit) => (.error insufficientDataMsg :
          Except String ProcessResult))
        (fun _ => .ok ⟨[], "cash",
          ⟨some 0, some 0, some 0, none, none, none, 0, "cash"⟩⟩)
        (fun _ => .error "t3") (fun _ => .error "t4") () [] =
      (.ok ⟨[], "cash", ⟨some 0, some 0, some 0, none, none, none, 0, "cash"⟩⟩,
        ["relaxedMapper"]) := rfl

/-- Claim C6 (amended): with fewer than one meaningful line the column
mapper fails fast with `InsufficientData` (before any header search, as
witnessed by the error being the insufficient-data message rather than
the no-header message); however the error is not treated as fatal by the
recovery tiers — the failsafe chain catches it like any other error and
re-attempts processing at the next tier, which may even succeed. -/
theorem c6_insufficient_data_fail_fast :
    (∀ lines, (lines.filter meaningfulLine).length = 0 →
      findColumnMappingSafe lines = .error insufficientDataMsg) ∧
    (insufficientDataMsg ≠ noHeaderFoundMsg) ∧
    (∀ (α : Type) (t1 t2 t3 t4 : α → Except String ProcessResult) (x : α)
      (fl : List String) (r : ProcessResult),
      t1 x = .error insufficientDataMsg → t2 x = .ok r →
      processFileWithFailsafes t1 t2 t3 t4 x fl =
        (.ok r, fl ++ ["relaxedMapper"])) := by
  refine ⟨fun lines h => ?_, by decide, fun α t1 t2 t3 t4 x fl r h1 h2 => ?_⟩
  · simp only [findColumnMappingSafe, h]
    rfl
  · simp only [processFileWithFailsafes, h1, h2]

/-- Witness for C6: a file holding one line of commas has no meaningful
line and maps to the `InsufficientData` error; a succeeding tier 2 is
then still attempted after that error. -/
theorem c6_insufficient_data_fail_fast_witness :
    (([",,,"].filter meaningfulLine).length = 0 ∧
      findColumnMappingSafe [",,,"] = .error insufficientDataMsg) ∧
    processFileWithFailsafes
        (fun (_ : Unit) => (.error insufficientDataMsg :
          Except String ProcessResult))
        (fun _ => .ok ⟨[], "unknown",
          ⟨none, none, none, none, none, none, 0, "unknown"⟩⟩)
        (fun _ => .error "t3") (fun _ => .error "t4") () ["seed"] =
      (.ok ⟨[], "unknown", ⟨none, none, none, none, none, none, 0, "unknown"⟩⟩,
        ["seed"] ++ ["relaxedMapper"]) :=
  ⟨⟨by decide, c6_insufficient_data_fail_fast.1 [",,,"] (by decide)⟩,
    c6_insufficient_data_fail_fast.2.2 Unit _ _ _ _ () ["seed"] _ rfl rfl⟩

/-- Bind of a successful `Except` computation. -/
theorem except_ok_bind {ε α β : Type} (a : α) (f : α → Except ε β) :
    (Except.ok a : Except ε α) >>= f = f a := rfl

/-- Claim C1 (counterexample): on the empty transaction set both policy
confidences are equal (both are 0), yet `countTransactions` with the
unspecified account type selects the credit policy, not the cash one —
the comparison is strict (`cashConfidence > creditConfidence`), so every
tie goes to credit. -/
theorem c1_tie_selects_credit_cex :
    calculatePolicyConfidence [] "cash" = calculatePolicyConfidence [] "credit" ∧
    countTransactions [] "unknown" =
      .ok ⟨none, none, none, some 0, some 0, some 0, 0, "credit"⟩ := by
  exact ⟨by decide, by decide⟩

/-- Claim C1 (amended): with the account type unspecified,
`countTransactions` runs both policies, computes both confidences (each
a fraction in `[0, 1]` of the valid transactions carrying unambiguous
policy signals), and returns the cash counts exactly when the cash
confidence is strictly greater than the credit confidence; otherwise —
including every tie — it returns the credit counts with the credit
policy active. -/
theorem c1_policy_selection (ts : List Transaction) (cc rc : Counts)
    (hc : countCashTransactions ts = .ok cc)
    (hr : countCreditTransactions ts = .ok rc) :
    (calculatePolicyConfidence ts "cash" > calculatePolicyConfidence ts "credit" →
      countTransactions ts "unknown" = .ok { cc with activePolicy := "cash" }) ∧
    (¬ calculatePolicyConfidence ts "cash" > calculatePolicyConfidence ts "credit" →
      countTransactions ts "unknown" = .ok { rc with activePolicy := "credit" }) ∧
    (calculatePolicyConfidence ts "cash" = calculatePolicyConfidence ts "credit" →
      countTransactions ts "unknown" = .ok { rc with activePolicy := "credit" }) ∧
    (0 ≤ calculatePolicyConfidence ts "cash" ∧
      calculatePolicyConfidence ts "cash" ≤ 1) ∧
    (0 ≤ calculatePolicyConfidence ts "credit" ∧
      calculatePolicyConfidence ts "credit" ≤ 1) := by
  have hbounds : ∀ p, 0 ≤ calculatePolicyConfidence ts p ∧
      calculatePolicyConfidence ts p ≤ 1 := by
    intro p
    unfold calculatePolicyConfidence
    set l := ts.filter (fun t => t.date.isSome && t.amount.isSome) with hl
    by_cases h0 : l.length = 0
    · simp [h0]
    · have hpos : 0 < (l.length : Rat) := by
        exact_mod_cast Nat.pos_of_ne_zero h0
      simp only [h0, if_false]
      rw [Rat.mkRat_eq_div]
      constructor
      · apply div_nonneg _ (le_of_lt hpos)
        exact_mod_cast Nat.zero_le _
      · rw [div_le_one hpos]
        exact_mod_cast List.countP_le_length _
  have hstep : countTransactions ts "unknown" =
      if calculatePolicyConfidence ts "cash" >
          calculatePolicyConfidence ts "credit" then
        .ok { cc with activePolicy := "cash" }
      else .ok { rc with activePolicy := "credit" } := by
    unfold countTransactions
    rw [if_neg (by decide : ¬ ("unknown" : String) = "cash"),
      if_neg (by decide : ¬ ("unknown" : String) = "credit"), hc,
      except_ok_bind, hr, except_ok_bind]
    rfl
  refine ⟨fun h => ?_, fun h => ?_, fun h => ?_, hbounds "cash", hbounds "credit"⟩
  · rw [hstep, if_pos h]
  · rw [hstep, if_neg h]
  · rw [hstep, if_neg (by rw [h]; exact lt_irrefl _)]

/-- Witness for C1 at the empty transaction set: both counters succeed,
the confidences tie, and the returned counts are the credit ones. -/
theorem c1_policy_selection_witness :
    countCashTransactions [] =
      .ok ⟨some 0, some 0, some 0, none, none, none, 0, "cash"⟩ ∧
    countCreditTransactions [] =
      .ok ⟨none, none, none, some 0, some 0, some 0, 0, "credit"⟩ ∧
    countTransactions [] "unknown" =
      .ok ⟨none, none, none, some 0, some 0, some 0, 0, "credit"⟩ := by
  refine ⟨by decide, by decide, ?_⟩
  exact (c1_policy_selection []
    ⟨some 0, some 0, some 0, none, none, none, 0, "cash"⟩
    ⟨none, none, none, some 0, some 0, some 0, 0, "credit"⟩
    (by decide) (by decide)).2.2.1 (by decide)

/-- Bind of a failed `Except` computation. -/
theorem except_error_bind {ε α β : Type} (e : ε) (f : α → Except ε β) :
    (Except.error e : Except ε α) >>= f = .error e := rfl

/-- Claim C10 (counterexample): a zero-amount transaction whose
description `"check#1001"` carries check-number evidence is tallied only
under `checks` — neither the debit nor the credit bucket is incremented
(the space-delimited keyword regex does not match `check#1001`, and the
amount is neither negative nor positive) — so it is not "additionally
tallied as a debit or credit" as claimed. -/
theorem c10_zero_amount_check_cex :
    checkNumTest (jsToLower "check#1001") = true ∧
    countCashTransactions
        [⟨some (.valid 0), some "check#1001", some 0, some "", none, none,
          none⟩] =
      .ok ⟨some 0, some 0, some 1, none, none, none, 0, "cash"⟩ := by
  exact ⟨by decide, by decide⟩

/-- Claim C10 (amended): the cash counter's result always has
`total = debits + credits` with checks excluded from the total; a
singleton run tallies exactly the per-transaction deltas; a transaction
with check-number evidence in its description increments `checks` and,
when its amount is nonzero, additionally increments `debits` or
`credits` (so it lands in two categories; a zero-amount check-evidence
transaction without keyword signals stays in `checks` only); and a
negative-amount transaction always increments `debits` regardless of its
type field. -/
theorem c10_cash_counts :
    (∀ ts c, countCashTransactions ts = .ok c →
      ∃ d cr k, c = ⟨some d, some cr, some k, none, none, none, d + cr,
        "cash"⟩) ∧
    (∀ t days, t.date = some (.valid days) → t.amount.isSome →
      countCashTransactions [t] =
        .ok ⟨some (cashDelta t).debits, some (cashDelta t).credits,
          some (cashDelta t).checks, none, none, none,
          (cashDelta t).debits + (cashDelta t).credits, "cash"⟩) ∧
    (∀ t, checkNumTest (jsToLower (t.description.getD "")) = true →
      (cashDelta t).checks = 1 ∧
      ∀ a, t.amount = some a → a ≠ 0 →
        (cashDelta t).debits + (cashDelta t).credits = 1) ∧
    (∀ t a, t.amount = some a → a < 0 →
      (cashDelta t).debits = 1 ∧ (cashDelta t).credits = 0) := by
  refine ⟨fun ts c h => ?_, fun t days hdate hamt => ?_,
    fun t hcheck => ?_, fun t a ha hneg => ?_⟩
  · unfold countCashTransactions at h
    cases hd : dedupByHash [] (validForCounting ts) with
    | error e =>
      rw [hd, except_error_bind] at h
      exact Except.noConfusion h
    | ok u =>
      rw [hd, except_ok_bind] at h
      exact ⟨_, _, _, (Except.ok.injEq _ _ ▸ h).symm⟩
  · obtain ⟨a, ha⟩ := Option.isSome_iff_exists.mp hamt
    have hvalid : validForCounting [t] = [t] := by
      unfold validForCounting
      rcases hp : t.posted with _ | b
      · simp [hdate, ha, hp]
      · cases b <;> simp [hdate, ha, hp]
    have hhash : ∃ hs, createTransactionHash t = .ok hs := by
      unfold createTransactionHash
      rw [hdate]
      exact ⟨_, rfl⟩
    obtain ⟨hs, hhash⟩ := hhash
    have hdedup : dedupByHash [] [t] = .ok [t] := by
      unfold dedupByHash
      rw [hhash, except_ok_bind]
      rfl
    unfold countCashTransactions
    rw [hvalid, hdedup, except_ok_bind]
    simp only [List.foldl_cons, List.foldl_nil, Nat.zero_add]
    rfl
  · have hiceq : isCheckTransaction (jsToLower (t.description.getD "")) []
        ⟨0, 0, 0, 0, 0, none⟩ = checkNumTest (jsToLower (t.description.getD ""))
        := by
      simp [isCheckTransaction]
    have hk : (cashDelta t).checks = 1 := by
      unfold cashDelta
      dsimp only
      rw [hiceq, hcheck]
      split
      · rfl
      · split <;> rfl
    refine ⟨hk, fun a ha hne => ?_⟩
    unfold cashDelta
    dsimp only
    rw [ha]
    dsimp only
    split
    · rfl
    next hdeb =>
      split
      · rfl
      next hcred =>
        exfalso
        simp only [Bool.or_eq_true, decide_eq_true_eq, not_or] at hdeb hcred
        rcases lt_or_gt_of_ne hne with hlt | hgt
        · exact hdeb.1 hlt
        · exact hcred.1 hgt
  · unfold cashDelta
    dsimp only
    rw [ha]
    dsimp only
    rw [decide_eq_true hneg, Bool.true_or, if_pos rfl]
    exact ⟨rfl, rfl⟩

/-- Witness for C10: a negative-amount check transaction runs through
the counter as the singleton equation predicts, its delta tallying both
`checks` and `debits`. -/
theorem c10_cash_counts_witness :
    countCashTransactions
        [⟨some (.valid 0), some "check 42", some (-5), some "", none, none,
          none⟩] =
      .ok ⟨some (cashDelta ⟨some (.valid 0), some "check 42", some (-5),
          some "", none, none, none⟩).debits,
        some (cashDelta ⟨some (.valid 0), some "check 42", some (-5), some "",
          none, none, none⟩).credits,
        some (cashDelta ⟨some (.valid 0), some "check 42", some (-5), some "",
          none, none, none⟩).checks, none, none, none,
        (cashDelta ⟨some (.valid 0), some "check 42", some (-5), some "", none,
          none, none⟩).debits +
          (cashDelta ⟨some (.valid 0), some "check 42", some (-5), some "",
            none, none, none⟩).credits, "cash"⟩ ∧
    (cashDelta ⟨some (.valid 0), some "check 42", some (-5), some "", none,
      none, none⟩).checks = 1 ∧
    (cashDelta ⟨some (.valid 0), some "check 42", some (-5), some "", none,
      none, none⟩).debits = 1 :=
  ⟨c10_cash_counts.2.1 ⟨some (.valid 0), some "check 42", some (-5), some "",
      none, none, none⟩ 0 rfl rfl,
    (c10_cash_counts.2.2.1 ⟨some (.valid 0), some "check 42", some (-5),
      some "", none, none, none⟩ (by decide)).1,
    (c10_cash_counts.2.2.2 ⟨some (.valid 0), some "check 42", some (-5),
      some "", none, none, none⟩ (-5) rfl (by decide)).1⟩

/-- The per-row loop accepts exactly when every aligned pair of rows has
equal column counts. -/
theorem rowsCheck_ok_iff (s : String) (bs : List (List String)) :
    ∀ (as' : List (List String)) (i : Nat),
      rowsCheck s i bs as' = Except.ok () ↔
        ∀ p ∈ bs.zip as', List.length p.1 = List.length p.2 := by
  induction bs with
  | nil =>
    intro as' i
    simp [rowsCheck]
  | cons b bs ih =>
    intro as' i
    cases as' with
    | nil => simp [rowsCheck]
    | cons a as' =>
      simp only [rowsCheck, List.zip_cons_cons, List.mem_cons]
      by_cases h : b.length = a.length
      · rw [if_neg (not_not_intro h), ih as' (i + 1)]
        constructor
        · rintro hall p (rfl | hp)
          · exact h
          · exact hall p hp
        · intro hall p hp
          exact hall p (Or.inr hp)
      · rw [if_pos h]
        constructor
        · intro hcon
          exact Except.noConfusion hcon
        · intro hall
          exact absurd (hall (b, a) (Or.inl rfl)) h

/-- The per-row loop fails only at an aligned pair of rows with unequal
column counts, naming the stage, index and both counts. -/
theorem rowsCheck_error (s : String) (bs : List (List String)) :
    ∀ (as' : List (List String)) (i : Nat) (e : String),
      rowsCheck s i bs as' = .error e →
        ∃ j bj aj, bs.get? j = some bj ∧ as'.get? j = some aj ∧
          bj.length ≠ aj.length ∧
          e = colCountDriftMsg s (i + j) bj.length aj.length := by
  induction bs with
  | nil =>
    intro as' i e h
    simp [rowsCheck] at h
  | cons b bs ih =>
    intro as' i e h
    cases as' with
    | nil => simp [rowsCheck] at h
    | cons a as' =>
      simp only [rowsCheck] at h
      by_cases hlen : b.length = a.length
      · rw [if_neg (not_not_intro hlen)] at h
        obtain ⟨j, bj, aj, h1, h2, h3, h4⟩ := ih as' (i + 1) e h
        refine ⟨j + 1, bj, aj, by simpa using h1, by simpa using h2, h3, ?_⟩
        rw [h4]
        congr 1
        omega
      · rw [if_pos hlen] at h
        refine ⟨0, b, a, rfl, rfl, hlen, ?_⟩
        rw [Nat.add_zero]
        exact (Except.error.injEq _ _ ▸ h).symm

/-- Pointwise column-count equality follows from equality of the
length images. -/
theorem zip_length_of_map_eq :
    ∀ (b a : List (List String)), b.map List.length = a.map List.length →
      ∀ p ∈ b.zip a, List.length p.1 = List.length p.2 := by
  intro b
  induction b with
  | nil =>
    intro a h p hp
    simp at hp
  | cons x xs ih =>
    intro a h p hp
    cases a with
    | nil => simp at hp
    | cons y ys =>
      simp only [List.map_cons, List.cons.injEq] at h
      rcases List.mem_cons.mp (by simpa using hp) with rfl | hp2
      · exact h.1
      · exact ih ys h.2 p hp2

/-- Claim C4: `assertStable` raises `RowDrift` iff the snapshots differ
in row count or some aligned row differs in column count; equal-shape
snapshots never raise regardless of cell contents; and every raised
error names the stage together with the before/after counts (row counts
for a row-count drift, the row index and both column counts
otherwise). -/
theorem c4_assert_stable_iff :
    (∀ b a s, assertStable b a s = .ok () ↔
      (b.length = a.length ∧
        ∀ p ∈ b.zip a, List.length p.1 = List.length p.2)) ∧
    (∀ b a s, b.map List.length = a.map List.length →
      assertStable b a s = .ok ()) ∧
    (∀ b a s, b.length ≠ a.length →
      assertStable b a s = .error (rowCountDriftMsg s b.length a.length)) ∧
    (∀ b a s e, assertStable b a s = .error e →
      e = rowCountDriftMsg s b.length a.length ∨
      ∃ j bj aj, b.get? j = some bj ∧ a.get? j = some aj ∧
        bj.length ≠ aj.length ∧
        e = colCountDriftMsg s j bj.length aj.length) := by
  have hok : ∀ b a s, assertStable b a s = .ok () ↔
      (b.length = a.length ∧
        ∀ p ∈ b.zip a, List.length p.1 = List.length p.2) := by
    intro b a s
    unfold assertStable
    by_cases hl : b.length = a.length
    · rw [if_neg (not_not_intro hl), rowsCheck_ok_iff]
      exact ⟨fun h => ⟨hl, h⟩, fun h => h.2⟩
    · rw [if_pos hl]
      constructor
      · intro h
        exact Except.noConfusion h
      · intro h
        exact absurd h.1 hl
  refine ⟨hok, fun b a s hmap => ?_, fun b a s hl => ?_, fun b a s e h => ?_⟩
  · refine (hok b a s).mpr ⟨?_, zip_length_of_map_eq b a hmap⟩
    have := congrArg List.length hmap
    simpa using this
  · unfold assertStable
    rw [if_pos hl]
  · unfold assertStable at h
    by_cases hl : b.length = a.length
    · rw [if_neg (not_not_intro hl)] at h
      obtain ⟨j, bj, aj, h1, h2, h3, h4⟩ := rowsCheck_error s b a 0 e h
      exact Or.inr ⟨j, bj, aj, h1, h2, h3, by simpa using h4⟩
    · rw [if_pos hl] at h
      exact Or.inl (Except.error.injEq _ _ ▸ h).symm

/-- Witness for C4: snapshots of two versus one rows raise the row-count
message; equal-shape snapshots with different contents pass. -/
theorem c4_assert_stable_iff_witness :
    (([["x"], ["y"]] : List (List String)).length ≠
      ([["z"]] : List (List String)).length ∧
      assertStable [["x"], ["y"]] [["z"]] "CSV parse complete" =
        .error (rowCountDriftMsg "CSV parse complete" 2 1)) ∧
    assertStable [["a", "b"]] [["c", "d"]] "stage" = .ok () :=
  ⟨⟨by decide, c4_assert_stable_iff.2.2.1 [["x"], ["y"]] [["z"]]
      "CSV parse complete" (by decide)⟩,
    c4_assert_stable_iff.2.1 [["a", "b"]] [["c", "d"]] "stage" (by decide)⟩

/-- A mapping returned by one header-search iteration has date and
amount resolved (the guard at the return site requires both). -/
theorem tryHeaderRow_some (lines : List String) (i : Nat) (m : ColumnMapping)
    (h : tryHeaderRow lines i = some m) :
    m.dateIndex ≠ -1 ∧ m.amountIndex ≠ -1 := by
  unfold tryHeaderRow at h
  dsimp only at h
  split at h
  · exact Option.noConfusion h
  · split at h
    · exact Option.noConfusion h
    · split at h
      next hguard =>
        split at h
        · obtain rfl := (Option.some.injEq _ _ ▸ h).symm
          simpa [Bool.and_eq_true, decide_eq_true_eq] using hguard
        · exact Option.noConfusion h
      · exact Option.noConfusion h

/-- A mapping returned by the header-search loop has date and amount
resolved. -/
theorem headerScan_some (lines : List String) :
    ∀ (idxs : List Nat) (m : ColumnMapping), headerScan lines idxs = some m →
      m.dateIndex ≠ -1 ∧ m.amountIndex ≠ -1 := by
  intro idxs
  induction idxs with
  | nil =>
    intro m h
    exact Option.noConfusion h
  | cons i rest ih =>
    intro m h
    simp only [headerScan] at h
    cases hk : tryHeaderRow lines i with
    | some m2 =>
      rw [hk] at h
      injection h with hh
      subst hh
      exact tryHeaderRow_some lines i m2 hk
    | none =>
      rw [hk] at h
      exact ih m h

/-- A mapping returned by pattern-based detection has date and amount
resolved (the guard before the return requires both). -/
theorem detectColumnsByPattern_some (lines : List String) (m : ColumnMapping)
    (h : detectColumnsByPattern lines = some m) :
    m.dateIndex ≠ -1 ∧ m.amountIndex ≠ -1 := by
  unfold detectColumnsByPattern at h
  dsimp only at h
  split at h
  · exact Option.noConfusion h
  · split at h
    · exact Option.noConfusion h
    next hguard =>
      obtain rfl := (Option.some.injEq _ _ ▸ h).symm
      have := hguard
      simp only [Bool.or_eq_true, decide_eq_true_eq] at this
      push_neg at this
      exact this

/-- Claim C8: whenever `findColumnMappingSafe` returns a mapping — on
the header-search path or on the pattern-based fallback path — both the
date index and the amount index are resolved (not `-1`); a mapping with
an unresolved date or amount index is never returned. -/
theorem c8_mapping_indices_resolved (lines : List String) (m : ColumnMapping)
    (h : findColumnMappingSafe lines = .ok m) :
    m.dateIndex ≠ -1 ∧ m.amountIndex ≠ -1 := by
  unfold findColumnMappingSafe at h
  split at h
  · exact Except.noConfusion h
  · cases hs : headerScan lines (List.range (min 40 lines.length)) with
    | some m2 =>
      rw [hs] at h
      injection h with hh
      subst hh
      exact headerScan_some lines _ m2 hs
    | none =>
      rw [hs] at h
      cases hd : detectColumnsByPattern lines with
      | some m2 =>
        rw [hd] at h
        injection h with hh
        subst hh
        exact detectColumnsByPattern_some lines m2 hd
      | none =>
        rw [hd] at h
        exact Except.noConfusion h

set_option maxRecDepth 40000 in
/-- Witness for C8 on a concrete file whose header row resolves. -/
theorem c8_mapping_indices_resolved_witness :
    findColumnMappingSafe
        ["Date,Description,Amount,Type", "2024-01-01,Store,-50.00,Debit"] =
      .ok ⟨0, 0, 1, 2, 3, none⟩ ∧
    (⟨0, 0, 1, 2, 3, none⟩ : ColumnMapping).dateIndex ≠ -1 ∧
    (⟨0, 0, 1, 2, 3, none⟩ : ColumnMapping).amountIndex ≠ -1 :=
  ⟨by decide,
    c8_mapping_indices_resolved
      ["Date,Description,Amount,Type", "2024-01-01,Store,-50.00,Debit"]
      ⟨0, 0, 1, 2, 3, none⟩ (by decide)⟩

/-- The imperative scan loop of `parseCSVLine` computes the trimmed
fields of the spec-side splitter, with the pending accumulator `cur`
prepended to the first remaining field. -/
theorem scanGo_eq_fieldsOf (d : Char) :
    ∀ (cs cur : List Char) (q : Bool) (acc : List String),
      scanGo d cur q acc cs =
        acc ++ ((cur ++ (fieldsOf d q cs).1) :: (fieldsOf d q cs).2).map
          (fun f => jsTrim ⟨f⟩) := by
  intro cs
  induction cs with
  | nil =>
    intro cur q acc
    simp [scanGo, fieldsOf]
  | cons c t ih =>
    intro cur q acc
    by_cases hq : c = '"'
    · simp only [scanGo, fieldsOf, hq, if_pos rfl, if_true]
      exact ih cur (!q) acc
    · by_cases hd : (c = d && !q) = true
      · simp only [scanGo, fieldsOf, if_neg hq, hd, if_true]
        rw [ih [] q (acc ++ [jsTrim ⟨cur⟩])]
        simp [List.append_assoc]
      · simp only [scanGo, fieldsOf, if_neg hq, hd, Bool.false_eq_true,
          if_false]
        rw [ih (cur ++ [c]) q acc]
        simp [List.append_assoc]

set_option maxHeartbeats 1000000 in
/-- The inlined reduce-and-default delimiter choice of `parseCSVLine`
agrees with the spec-side argmax choice, for any four counts. -/
theorem pickChain_eq_selSpec (n0 n1 n2 n3 : Nat) :
    (if ([(';', n1), ('\t', n2), ('|', n3)].foldl
        (fun (m cur : Char × Nat) => if cur.2 > m.2 then cur else m)
        (',', n0)).2 > 0 then
      ([(';', n1), ('\t', n2), ('|', n3)].foldl
        (fun (m cur : Char × Nat) => if cur.2 > m.2 then cur else m)
        (',', n0)).1
    else ',') =
    (if n0 ≥ n1 ∧ n0 ≥ n2 ∧ n0 ≥ n3 then ','
     else if n1 ≥ n2 ∧ n1 ≥ n3 then ';'
     else if n2 ≥ n3 then '\t'
     else '|') := by
  simp only [List.foldl_cons, List.foldl_nil]
  split_ifs <;> first | rfl | (exfalso; omega)

/-- Claim C7: `parseCSVLine` coincides with the spec-side tokenizer
(select the delimiter by raw counts that ignore quoting, split on it
only outside quoted regions with quotes toggled and dropped and with an
unterminated quote including the rest of the line literally, trim every
field), and the selected delimiter realizes the stated choice rule: it
is one of the four candidates, its raw count is maximal, all-zero counts
default to comma, and on ties the first-listed candidate wins (the
selected delimiter strictly beats every earlier-listed one). -/
theorem c7_tokenizer_spec (line : String) :
    parseCSVLine line = tokenizeLineSpec line ∧
    selectDelimiter line ∈ [',', ';', '\t', '|'] ∧
    (∀ d ∈ [',', ';', '\t', '|'],
      line.data.count d ≤ line.data.count (selectDelimiter line)) ∧
    ((∀ d ∈ [',', ';', '\t', '|'], line.data.count d = 0) →
      selectDelimiter line = ',') ∧
    (selectDelimiter line = ',' ∨
      (selectDelimiter line = ';' ∧
        line.data.count ',' < line.data.count ';') ∨
      (selectDelimiter line = '\t' ∧
        line.data.count ',' < line.data.count '\t' ∧
        line.data.count ';' < line.data.count '\t') ∨
      (selectDelimiter line = '|' ∧
        line.data.count ',' < line.data.count '|' ∧
        line.data.count ';' < line.data.count '|' ∧
        line.data.count '\t' < line.data.count '|')) := by
  have hdelim : chooseDelimiterSource line = selectDelimiter line := by
    unfold chooseDelimiterSource selectDelimiter
    dsimp only
    exact pickChain_eq_selSpec _ _ _ _
  refine ⟨?_, ?_, ?_, ?_, ?_⟩
  · unfold parseCSVLine tokenizeLineSpec
    rw [scanGo_eq_fieldsOf, hdelim]
    simp
  · unfold selectDelimiter
    dsimp only
    split_ifs <;> decide
  · intro d hd
    simp only [List.mem_cons, List.not_mem_nil, or_false] at hd
    unfold selectDelimiter
    dsimp only
    rcases hd with rfl | rfl | rfl | rfl <;> split_ifs <;> omega
  · intro hz
    have h0 := hz ',' (by simp)
    have h1 := hz ';' (by simp)
    have h2 := hz '\t' (by simp)
    have h3 := hz '|' (by simp)
    unfold selectDelimiter
    dsimp only
    split_ifs <;> first | rfl | (exfalso; omega)
  · unfold selectDelimiter
    dsimp only
    split_ifs <;> first
      | exact Or.inl rfl
      | (exact Or.inr (Or.inl ⟨rfl, by omega⟩))
      | (exact Or.inr (Or.inr (Or.inl ⟨rfl, by omega, by omega⟩)))
      | (exact Or.inr (Or.inr (Or.inr ⟨rfl, by omega, by omega, by omega⟩)))

/-- Witness for C7 on a concrete semicolon-delimited line with a quoted
comma: both sides tokenize identically and the semicolon count bound
holds for the comma candidate. -/
theorem c7_tokenizer_spec_witness :
    parseCSVLine "a;\"b;c\" ; d,e" = tokenizeLineSpec "a;\"b;c\" ; d,e" ∧
    (("a;\"b;c\" ; d,e" : String).data.count ',' ≤
      ("a;\"b;c\" ; d,e" : String).data.count
        (selectDelimiter "a;\"b;c\" ; d,e")) :=
  ⟨(c7_tokenizer_spec "a;\"b;c\" ; d,e").1,
    (c7_tokenizer_spec "a;\"b;c\" ; d,e").2.2.1 ',' (by decide)⟩

end TxApp
